import Mathlib

/-!
# Verification of the signal-to-execution pipeline

A shallow embedding of the trading-signal pipeline: the signal parser
(`src/parser/signalParser.js`) and the order engine (`OrderEngine`:
message gating, execution orchestration, fill supervision, edit tracking).

Modelling conventions:
* JS strings are `String` / `List Char`; JS `string.length` counts UTF-16
  code units, modelled by `utf16Len`.
* JS numbers are `ℚ`; a JS number that may be `null`/`NaN` is `Option ℚ`
  (`none` standing for the falsy non-number cases), with JS truthiness
  modelled by `jsTruthyQ`.
* The JS regexes are hand-compiled to deterministic matchers over
  `List Char`; each matcher's doc comment records the source regex, and
  backtracking is resolved statically where the character classes make the
  greedy/lazy choices forced.
* External collaborators (exchange client, database, `crypto.createHash`,
  `Date.now`) are passed in as explicit data/parameters (`ExecEnv`,
  whitelist list, `md5`, `now`).
* Every externally visible action (event emission, database write, client
  call) is recorded in order in a `List Step` trace.
-/

/-- JS `\s` whitespace class (the ASCII members plus NBSP and BOM;
JS additionally folds other rare Unicode space separators, which do not
occur in signal text). -/
def isJsSpace (c : Char) : Bool :=
  c = ' ' ∨ c = '\t' ∨ c = '\n' ∨ c = '\r' ∨ c = '\x0b' ∨ c = '\x0c' ∨
  c = '\u00a0' ∨ c = '\ufeff'

/-- ASCII alphanumeric: the class `[A-Z0-9]` under the `/i` flag
(also `[A-Za-z0-9]` without it). -/
def isAsciiAlnum (c : Char) : Bool :=
  ('A' ≤ c ∧ c ≤ 'Z') ∨ ('a' ≤ c ∧ c ≤ 'z') ∨ c.isDigit

/-- JS `\w` class `[A-Za-z0-9_]`. -/
def isWordChar (c : Char) : Bool := isAsciiAlnum c ∨ c = '_'

/-- JS `string.length`: number of UTF-16 code units (astral characters
count twice). -/
def utf16Len (cs : List Char) : Nat :=
  (cs.map (fun c => if c.toNat ≥ 0x10000 then 2 else 1)).sum

/-- Case-insensitive literal match: consumes the word `w` from the front of
`cs`, returning the rest. Models a literal regex fragment under `/i`. -/
def matchWordCI : List Char → List Char → Option (List Char)
  | [], cs => some cs
  | _ :: _, [] => none
  | w :: ws, c :: cs => if w.toLower = c.toLower then matchWordCI ws cs else none

/-- Regex fragment `\s+W` (when `requireOne`) or `\s*W`: greedy whitespace
then the literal `w`. Backtracking is forced because no literal here begins
with a whitespace character. -/
def spacesThenWord (w : List Char) (requireOne : Bool) (cs : List Char) : Option (List Char) :=
  if requireOne ∧ cs.takeWhile isJsSpace = [] then none
  else matchWordCI w (cs.dropWhile isJsSpace)

/-- JS `parseInt` on a nonempty digit string. -/
def natOfDigits (ds : List Char) : Nat :=
  ds.foldl (fun a c => a * 10 + (c.toNat - '0'.toNat)) 0

/-- JS `parseFloat` restricted to strings over digits and dots (the only
inputs it receives here: regex captures of `[\d.]+` or `[\d.,]+` with the
commas removed). Takes the longest prefix of the form `\d+(\.\d*)?` or
`\.\d+`; `none` models `NaN`. -/
def jsParseFloatDD (cs : List Char) : Option ℚ :=
  let intPart := cs.takeWhile Char.isDigit
  let rest := cs.dropWhile Char.isDigit
  if intPart ≠ [] then
    match rest with
    | '.' :: r2 =>
      let frac := r2.takeWhile Char.isDigit
      some ((natOfDigits intPart : ℚ) + (natOfDigits frac : ℚ) / (10 : ℚ) ^ frac.length)
    | _ => some (natOfDigits intPart : ℚ)
  else
    match cs with
    | '.' :: r2 =>
      let frac := r2.takeWhile Char.isDigit
      if frac = [] then none
      else some ((natOfDigits frac : ℚ) / (10 : ℚ) ^ frac.length)
    | _ => none

/-- JS truthiness of a nullable number: `null`/`NaN` (modelled `none`) and
`0` are falsy. -/
def jsTruthyQ : Option ℚ → Bool
  | none => false
  | some q => q ≠ 0

/-- JS `String.prototype.trim` (whitespace stripped from both ends). -/
def jsTrim (cs : List Char) : List Char :=
  ((cs.dropWhile isJsSpace).reverse.dropWhile isJsSpace).reverse

/-- Lower-case a string (SQLite `COLLATE NOCASE` comparison is modelled by
comparing lower-cased strings; `NOCASE` folds ASCII only, and whitelist
names are ASCII). -/
def lowerStr (s : String) : String := String.mk (s.data.map Char.toLower)

/-- Number of decimal digits of `n` (first argument is fuel, called with
`n` itself, which always suffices since `n / 10 < n` for `n ≥ 10`). -/
def digitsLen : Nat → Nat → Nat
  | 0, _ => 1
  | f + 1, n => if n < 10 then 1 else digitsLen f (n / 10) + 1

/-- Search for the smallest `k ≥ k₀` with `1 ≤ a * 10 ^ k` (fuel-bounded;
the fuel passed by `decExp` always suffices). -/
def smallExpAux : Nat → ℚ → Nat → Nat
  | 0, _, k => k
  | f + 1, a, k => if 1 ≤ a * (10 : ℚ) ^ k then k else smallExpAux f a (k + 1)

/-- Decimal exponent of a positive rational: the `e` with
`10 ^ e ≤ a < 10 ^ (e + 1)`. -/
def decExp (a : ℚ) : ℤ :=
  if 1 ≤ a then (digitsLen ⌊a⌋₊ ⌊a⌋₊ : ℤ) - 1
  else - (smallExpAux (digitsLen ⌈1 / a⌉₊ ⌈1 / a⌉₊) a 1 : ℤ)

/-- `10 ^ e` for an integer exponent. -/
def pow10 (e : ℤ) : ℚ :=
  if 0 ≤ e then (10 : ℚ) ^ e.toNat else 1 / (10 : ℚ) ^ (-e).toNat

/-- Rounding with ties away from zero for positive arguments, as used by
`Number.prototype.toPrecision` ("if there are two such n, pick the larger
n"). -/
def roundHalfUp (q : ℚ) : ℤ := ⌊q + 1 / 2⌋

/-- JS `parseFloat(x.toPrecision(4))`: round to 4 significant decimal
digits (the magnitude is rounded, so negative values round away from
zero on ties, matching ECMA-262). -/
def toPrecision4 (q : ℚ) : ℚ :=
  if q = 0 then 0
  else
    let a := |q|
    let sign : ℚ := if 0 < q then 1 else -1
    let e := decExp a
    let scale := pow10 (3 - e)
    sign * ((roundHalfUp (a * scale) : ℚ) / scale)

/-! ## Signal parser (`src/parser/signalParser.js`) -/

/-- One parsed take-profit level: `{ level, price, hit }`.
`price` is `parseFloat` of a `[\d.]+` capture, `none` when that is `NaN`. -/
structure TpLevel where
  level : Nat
  price : Option ℚ
  hit : Bool
deriving DecidableEq, Repr

/-- One parsed DCA level: `{ level, price }`. -/
structure DcaLevel where
  level : Nat
  price : Option ℚ
deriving DecidableEq, Repr

/-- `/(LONG|SHORT)\s+SIGNAL/i` at the current position: alternation in
order (`LONG` first; the two alternatives can never match at the same
position), then `\s+SIGNAL` (forced greedy: `S` is not whitespace).
Returns the direction already lower-cased (the engine lower-cases the
captured group before use, and only the cased value flows onward). -/
def matchSideStrictAt (cs : List Char) : Option String :=
  match matchWordCI "LONG".data cs with
  | some r => if (spacesThenWord "SIGNAL".data true r).isSome then some "long" else none
  | none =>
    match matchWordCI "SHORT".data cs with
    | some r => if (spacesThenWord "SIGNAL".data true r).isSome then some "short" else none
    | none => none

/-- Leftmost match of `/(LONG|SHORT)\s+SIGNAL/i`. -/
def findSideStrict : List Char → Option String
  | [] => none
  | c :: cs =>
    match matchSideStrictAt (c :: cs) with
    | some v => some v
    | none => findSideStrict cs

/-- Captured group of `/(?:🟢|🔴|📊)?\s*(LONG|SHORT)/i` (and of the variant
without `📊`): because the emoji prefix is optional and `\s*` may be empty,
the pattern matches iff `LONG` or `SHORT` occurs case-insensitively, and
the leftmost match always captures the first such occurrence (the region a
match may skip consists only of an optional emoji and whitespace, none of
which can start `LONG`/`SHORT`). Returned lower-cased, as above. -/
def findSideLoose : List Char → Option String
  | [] => none
  | c :: cs =>
    if (matchWordCI "LONG".data (c :: cs)).isSome then some "long"
    else if (matchWordCI "SHORT".data (c :: cs)).isSome then some "short"
    else findSideLoose cs

/-- The dash class `[-–—]`. -/
def dashChars : List Char := ['-', '–', '—']

/-- The bullet class `[•·]`. -/
def bulletChars : List Char := ['•', '·']

/-- Largest index `k ≥ 0` such that `cs.drop k` starts with `USDT`
(case-insensitively). Used to resolve the greedy backtracking of
`([A-Z0-9]+)\/?USDT` when the slash is absent: the group keeps as many
characters as possible, so `USDT` is found at the last place it occurs. -/
def lastUsdtIdx : List Char → Option Nat
  | [] => none
  | c :: rest =>
    match lastUsdtIdx rest with
    | some k => some (k + 1)
    | none => if (matchWordCI "USDT".data (c :: rest)).isSome then some 0 else none

/-- Greedy-backtracking resolution of `([A-Z0-9]+)\/?USDT` inside a maximal
alphanumeric run with no following `/USDT`: the group is the longest
nonempty proper prefix of `run` whose remainder starts with `USDT`. -/
def usdtSplit (run : List Char) : Option (List Char) :=
  match run with
  | [] => none
  | _ :: rest => (lastUsdtIdx rest).map (fun k => run.take (k + 1))

/-- The leading `(?:LONG|SHORT)` alternation of the primary ticker
pattern (tried in order; at most one alternative can match at a given
position). -/
def sideWordAt (cs : List Char) : Option (List Char) :=
  match matchWordCI "LONG".data cs with
  | some r => some r
  | none => matchWordCI "SHORT".data cs

/-- The `\s*[-–—]\s*([A-Z0-9]+)\/?USDT` tail of the primary ticker
pattern, applied after `SIGNAL`. -/
def tickerDashTail (r2 : List Char) : Option (List Char) :=
  match r2.dropWhile isJsSpace with
  | [] => none
  | d :: r4 =>
    if d ∈ dashChars then
      let r5 := r4.dropWhile isJsSpace
      let run := r5.takeWhile isAsciiAlnum
      let rest := r5.dropWhile isAsciiAlnum
      if run = [] then none
      else
        match rest with
        | '/' :: r6 =>
          if (matchWordCI "USDT".data r6).isSome then some run else usdtSplit run
        | _ => usdtSplit run
    else none

/-- `/(?:LONG|SHORT)\s+SIGNAL\s*[-–—]\s*([A-Z0-9]+)\/?USDT/i` at the
current position, returning the ticker capture: the side alternation,
`\s+SIGNAL`, then the dash tail. -/
def matchTickerPrimaryAt (cs : List Char) : Option (List Char) :=
  match sideWordAt cs with
  | none => none
  | some r1 =>
    match spacesThenWord "SIGNAL".data true r1 with
    | none => none
    | some r2 => tickerDashTail r2

/-- Leftmost match of the primary ticker pattern. -/
def findTickerPrimary : List Char → Option (List Char)
  | [] => none
  | c :: cs =>
    match matchTickerPrimaryAt (c :: cs) with
    | some t => some t
    | none => findTickerPrimary cs

/-- The `\s*[•·]\s*([A-Z0-9]+)\s*[•·]` tail of the header ticker pattern,
applied after `SIGNAL`. -/
def tickerBulletTail (r2 : List Char) : Option (List Char) :=
  match r2.dropWhile isJsSpace with
  | [] => none
  | b :: r4 =>
    if b ∈ bulletChars then
      let r5 := r4.dropWhile isJsSpace
      let run := r5.takeWhile isAsciiAlnum
      let r6 := r5.dropWhile isAsciiAlnum
      if run = [] then none
      else
        match r6.dropWhile isJsSpace with
        | b2 :: _ => if b2 ∈ bulletChars then some run else none
        | [] => none
    else none

/-- `/NEW\s+SIGNAL\s*[•·]\s*([A-Z0-9]+)\s*[•·]/i` at the current position
(the fallback "NEW SIGNAL • TICKER • Entry" header form): `NEW`,
`\s+SIGNAL`, then the bullet tail. -/
def matchTickerHeaderAt (cs : List Char) : Option (List Char) :=
  match matchWordCI "NEW".data cs with
  | none => none
  | some r1 =>
    match spacesThenWord "SIGNAL".data true r1 with
    | none => none
    | some r2 => tickerBulletTail r2

/-- Leftmost match of the header ticker pattern. -/
def findTickerHeader : List Char → Option (List Char)
  | [] => none
  | c :: cs =>
    match matchTickerHeaderAt (c :: cs) with
    | some t => some t
    | none => findTickerHeader cs

/-- Ticker extraction: primary pattern, falling back to the header
pattern, upper-cased (`tickerMatch[1].toUpperCase()`). -/
def extractTicker (cs : List Char) : Option (List Char) :=
  match findTickerPrimary cs with
  | some t => some (t.map Char.toUpper)
  | none => (findTickerHeader cs).map (fun t => t.map Char.toUpper)

/-- The lazy tail of `/@([A-Za-z0-9][\w\s]*?)\s*🏦/`: grow the group one
`[\w\s]` character at a time (lazy `*?`), stopping as soon as `\s*🏦`
matches at the current point (`\s*` is forced greedy since `🏦` is not
whitespace). Returns the matched tail of the capture group. -/
def traderLazyTail (cs : List Char) (acc : List Char) : Option (List Char) :=
  if (cs.dropWhile isJsSpace).head? = some '🏦' then some acc.reverse
  else
    match cs with
    | c :: cs2 =>
      if isWordChar c ∨ isJsSpace c then traderLazyTail cs2 (c :: acc) else none
    | [] => none

/-- `/@([A-Za-z0-9][\w\s]*?)\s*🏦/` at the current position, with the
source's `.trim()` applied to the capture. -/
def matchTraderHeaderAt (cs : List Char) : Option String :=
  match cs with
  | '@' :: c :: rest =>
    if isAsciiAlnum c then
      (traderLazyTail rest []).map (fun tail => String.mk (jsTrim (c :: tail)))
    else none
  | _ => none

/-- Leftmost match of the trader header pattern. -/
def findTraderHeader : List Char → Option String
  | [] => none
  | c :: cs =>
    match matchTraderHeaderAt (c :: cs) with
    | some v => some v
    | none => findTraderHeader cs

/-- `/Trader:\s*(\S+)/i` at the current position, with `.trim()` applied
(a no-op on a `\S+` capture, kept for fidelity). -/
def matchTraderBodyAt (cs : List Char) : Option String :=
  match matchWordCI "Trader:".data cs with
  | none => none
  | some r =>
    let r2 := r.dropWhile isJsSpace
    let run := r2.takeWhile (fun c => ¬ isJsSpace c)
    if run = [] then none else some (String.mk (jsTrim run))

/-- Leftmost match of the trader body pattern. -/
def findTraderBody : List Char → Option String
  | [] => none
  | c :: cs =>
    match matchTraderBodyAt (c :: cs) with
    | some v => some v
    | none => findTraderBody cs

/-- `/Leverage:\s*(\d+)x/i` at the current position; `parseInt` of the
digit capture. -/
def matchLeverageAt (cs : List Char) : Option Nat :=
  match matchWordCI "Leverage:".data cs with
  | none => none
  | some r =>
    let r2 := r.dropWhile isJsSpace
    let ds := r2.takeWhile Char.isDigit
    let r3 := r2.dropWhile Char.isDigit
    if ds = [] then none
    else
      match r3 with
      | c :: _ => if c.toLower = 'x' then some (natOfDigits ds) else none
      | [] => none

/-- Leftmost match of the leverage pattern. -/
def findLeverage : List Char → Option Nat
  | [] => none
  | c :: cs =>
    match matchLeverageAt (c :: cs) with
    | some v => some v
    | none => findLeverage cs

/-- `/Entry[:\s]*\$?([\d.,]+)/i` at the current position, returning the
raw numeric capture. All three character classes involved are disjoint, so
the greedy choices are forced. -/
def matchEntryAt (cs : List Char) : Option (List Char) :=
  match matchWordCI "Entry".data cs with
  | none => none
  | some r =>
    let r2 := r.dropWhile (fun c => c = ':' ∨ isJsSpace c)
    let r3 := match r2 with
      | '$' :: t => t
      | _ => r2
    let run := r3.takeWhile (fun c => c.isDigit ∨ c = '.' ∨ c = ',')
    if run = [] then none else some run

/-- Leftmost match of the entry pattern. -/
def findEntry : List Char → Option (List Char)
  | [] => none
  | c :: cs =>
    match matchEntryAt (c :: cs) with
    | some v => some v
    | none => findEntry cs

/-- Entry price: `parseFloat(entryMatch[1].replace(/,/g, ''))`, set to
`null` when `NaN` or non-positive. -/
def extractEntryPrice (cs : List Char) : Option ℚ :=
  match findEntry cs with
  | none => none
  | some run =>
    match jsParseFloatDD (run.filter (fun c => c ≠ ',')) with
    | none => none
    | some q => if q ≤ 0 then none else some q

/-- `/TP(\d+):\s*([\d.]+)(?:\s*(HIT))?/gi` at the current position:
level, price and the optional `HIT` marker (the greedy optional group is
taken iff `\s*HIT` matches right after the price). Returns the parsed
level and the rest of the input after the match. -/
def matchTPAt (cs : List Char) : Option (TpLevel × List Char) :=
  match matchWordCI "TP".data cs with
  | none => none
  | some r =>
    let ds := r.takeWhile Char.isDigit
    let r2 := r.dropWhile Char.isDigit
    if ds = [] then none
    else
      match r2 with
      | ':' :: r3 =>
        let r4 := r3.dropWhile isJsSpace
        let run := r4.takeWhile (fun c => c.isDigit ∨ c = '.')
        let r5 := r4.dropWhile (fun c => c.isDigit ∨ c = '.')
        if run = [] then none
        else
          match spacesThenWord "HIT".data false r5 with
          | some r6 => some (⟨natOfDigits ds, jsParseFloatDD run, true⟩, r6)
          | none => some (⟨natOfDigits ds, jsParseFloatDD run, false⟩, r5)
      | _ => none

/-- Global scan for the TP pattern (non-overlapping, left to right, as a
`g`-flagged `exec` loop; the fuel is the input length, which suffices
since every step consumes at least one character). -/
def scanTP : Nat → List Char → List TpLevel
  | 0, _ => []
  | _ + 1, [] => []
  | fuel + 1, c :: cs =>
    match matchTPAt (c :: cs) with
    | some (tp, rest) => tp :: scanTP fuel rest
    | none => scanTP fuel cs

/-- `/✅\s*TP(\d+)/gi` at the current position. -/
def matchTpHitAt (cs : List Char) : Option (Nat × List Char) :=
  match cs with
  | '✅' :: r =>
    let r2 := r.dropWhile isJsSpace
    match matchWordCI "TP".data r2 with
    | none => none
    | some r3 =>
      let ds := r3.takeWhile Char.isDigit
      if ds = [] then none
      else some (natOfDigits ds, r3.dropWhile Char.isDigit)
  | _ => none

/-- Global scan for the `✅ TPn` hit markers. -/
def scanTpHits : Nat → List Char → List Nat
  | 0, _ => []
  | _ + 1, [] => []
  | fuel + 1, c :: cs =>
    match matchTpHitAt (c :: cs) with
    | some (lv, rest) => lv :: scanTpHits fuel rest
    | none => scanTpHits fuel cs

/-- `tpLevels.find(t => t.level === level)` followed by `existing.hit =
true`: mark the first level with the given number as hit. -/
def applyHit : List TpLevel → Nat → List TpLevel
  | [], _ => []
  | t :: rest, lv =>
    if t.level = lv then { t with hit := true } :: rest
    else t :: applyHit rest lv

/-- `/DCA(\d+):\s*([\d.]+)/gi` at the current position. -/
def matchDCAAt (cs : List Char) : Option (DcaLevel × List Char) :=
  match matchWordCI "DCA".data cs with
  | none => none
  | some r =>
    let ds := r.takeWhile Char.isDigit
    let r2 := r.dropWhile Char.isDigit
    if ds = [] then none
    else
      match r2 with
      | ':' :: r3 =>
        let r4 := r3.dropWhile isJsSpace
        let run := r4.takeWhile (fun c => c.isDigit ∨ c = '.')
        let r5 := r4.dropWhile (fun c => c.isDigit ∨ c = '.')
        if run = [] then none
        else some (⟨natOfDigits ds, jsParseFloatDD run⟩, r5)
      | _ => none

/-- Global scan for the DCA pattern. -/
def scanDCA : Nat → List Char → List DcaLevel
  | 0, _ => []
  | _ + 1, [] => []
  | fuel + 1, c :: cs =>
    match matchDCAAt (c :: cs) with
    | some (dca, rest) => dca :: scanDCA fuel rest
    | none => scanDCA fuel cs

/-- `/(?:closed|TRADE\s+CLOSED)/i.test(content)` at the current position. -/
def closedTestAt (cs : List Char) : Bool :=
  (matchWordCI "closed".data cs).isSome ||
  (match matchWordCI "TRADE".data cs with
   | some r => (spacesThenWord "CLOSED".data true r).isSome
   | none => false)

/-- Whole-string closure test. -/
def testClosed : List Char → Bool
  | [] => false
  | c :: cs => closedTestAt (c :: cs) || testClosed cs

/-- Case-insensitive substring test (used for `/Triggered/i.test`). -/
def containsCI (w : List Char) : List Char → Bool
  | [] => false
  | c :: cs => (matchWordCI w (c :: cs)).isSome || containsCI w cs

/-- The P&L value group `([+-]?[\d.]+%)` at the current position (the
capture includes the sign and the percent sign). -/
def pnlGroupAt (cs : List Char) : Option (List Char) :=
  let (sign, r1) := match cs with
    | '+' :: t => (['+'], t)
    | '-' :: t => (['-'], t)
    | _ => (([] : List Char), cs)
  let run := r1.takeWhile (fun c => c.isDigit ∨ c = '.')
  let r2 := r1.dropWhile (fun c => c.isDigit ∨ c = '.')
  if run = [] then none
  else
    match r2 with
    | '%' :: _ => some (sign ++ run ++ ['%'])
    | _ => none

/-- `/Final\s+<kw>\s*([+-]?[\d.]+%)/i` at the current position, where
`kw` is `P&L:` or `profit:`. -/
def matchFinalPnlAt (kw : List Char) (cs : List Char) : Option (List Char) :=
  match matchWordCI "Final".data cs with
  | none => none
  | some r1 =>
    match spacesThenWord kw true r1 with
    | none => none
    | some r2 => pnlGroupAt (r2.dropWhile isJsSpace)

/-- Leftmost match of the `Final <kw>` P&L pattern. -/
def findFinalPnl (kw : List Char) : List Char → Option (List Char)
  | [] => none
  | c :: cs =>
    match matchFinalPnlAt kw (c :: cs) with
    | some v => some v
    | none => findFinalPnl kw cs

/-- `/P&L:\s*([+-]?[\d.]+%)/i` at the current position. -/
def matchPnlBareAt (cs : List Char) : Option (List Char) :=
  match matchWordCI "P&L:".data cs with
  | none => none
  | some r => pnlGroupAt (r.dropWhile isJsSpace)

/-- Leftmost match of the bare P&L pattern. -/
def findPnlBare : List Char → Option (List Char)
  | [] => none
  | c :: cs =>
    match matchPnlBareAt (c :: cs) with
    | some v => some v
    | none => findPnlBare cs

/-- Final P&L: the three patterns tried in source order, kept as a
string. -/
def extractFinalPnl (cs : List Char) : Option String :=
  match findFinalPnl "P&L:".data cs with
  | some g => some (String.mk g)
  | none =>
    match findFinalPnl "profit:".data cs with
    | some g => some (String.mk g)
    | none => (findPnlBare cs).map String.mk

/-- A JS value at the parser's public boundary: either a string or any
non-string value (`parseSignal` checks `typeof content !== 'string'`). -/
inductive JsVal
  | str (s : String)
  | nonString
deriving DecidableEq, Repr

/-- A parsed signal (the record built at the end of `parseSignal`).
`side` is `"long"`/`"short"`, `messageType` is
`"new_signal"`/`"edit_update"`. -/
structure Signal where
  signalId : String
  ticker : String
  instId : String
  side : String
  entryPrice : Option ℚ
  leverage : Option Nat
  traderName : Option String
  tpLevels : List TpLevel
  dcaLevels : List DcaLevel
  finalPnl : Option String
  isClosed : Bool
  isTriggered : Bool
  messageType : String
  rawContent : String
deriving DecidableEq, Repr

/-- String form of a nullable number as interpolated into the fallback
hash input (`${side}-${instId}-${entryPrice}-${Date.now()}`); JS renders
`null` as `"null"`. The decimal rendering of the number itself is
approximated by the rational's string form — it only feeds the opaque
hash, and only when the message id is empty. -/
def entryPriceStr : Option ℚ → String
  | none => "null"
  | some q => toString q

/-- The body of `parseSignal` once the input is known to be a string of
admissible length. `md5` stands for
`crypto.createHash('md5').update(s).digest('hex')` and `now` for
`Date.now()` (both external collaborators). Mirrors the source line by
line: side detection (strict pattern with loose fallback — the two loose
variants in the source, with and without `📊`, both reduce to
`findSideLoose`), ticker extraction, independent field scans, and the
final record assembly. -/
def parseSignalCore (md5 : String → String) (now : Nat) (content : String)
    (messageId : String) (seenMessageIds : Option (List String)) : Option Signal :=
  let cs := content.data
  let sideStrict := findSideStrict cs
  if sideStrict = none ∧ findSideLoose cs = none then none
  else
    match (match sideStrict with
           | some v => some v
           | none => findSideLoose cs) with
    | none => none
    | some side =>
      match extractTicker cs with
      | none => none
      | some tickerCs =>
        let ticker := String.mk tickerCs
        let traderName :=
          match findTraderHeader cs with
          | some t => some t
          | none => findTraderBody cs
        let leverage := findLeverage cs
        let entryPrice := extractEntryPrice cs
        let tpLevels := (scanTpHits cs.length cs).foldl applyHit (scanTP cs.length cs)
        let dcaLevels := scanDCA cs.length cs
        let isClosed := testClosed cs
        let isTriggered := containsCI "Triggered".data cs
        let finalPnl := extractFinalPnl cs
        let messageType :=
          match seenMessageIds with
          | some seen => if seen.contains messageId then "edit_update" else "new_signal"
          | none => "new_signal"
        let instId := ticker ++ "-USDT"
        let hashInput :=
          if messageId ≠ "" then messageId
          else side ++ "-" ++ instId ++ "-" ++ entryPriceStr entryPrice ++ "-" ++ toString now
        let signalId := String.mk ((md5 hashInput).data.take 12)
        some {
          signalId := signalId, ticker := ticker, instId := instId, side := side,
          entryPrice := entryPrice, leverage := leverage, traderName := traderName,
          tpLevels := tpLevels, dcaLevels := dcaLevels, finalPnl := finalPnl,
          isClosed := isClosed, isTriggered := isTriggered,
          messageType := messageType, rawContent := content }

/-- `parseSignal(content, messageId, seenMessageIds)`: the public entry
point with its input guards (`!content || typeof content !== 'string'`,
`content.length < 10`). -/
def parseSignal (md5 : String → String) (now : Nat) (content : JsVal)
    (messageId : String) (seenMessageIds : Option (List String)) : Option Signal :=
  match content with
  | .nonString => none
  | .str s =>
    if s = "" then none
    else if utf16Len s.data < 10 then none
    else parseSignalCore md5 now s messageId seenMessageIds

/-- The result of `parseEditDiff`. -/
structure EditDiff where
  tpHits : List Nat
  isClosed : Bool
  finalPnl : Option String
deriving DecidableEq, Repr

/-- `parseEditDiff(oldContent, newContent)`: reparse both sides with an
empty message id and no seen-set, then compute newly-hit TP levels, the
`false → true` closure transition, and the new parse's final P&L. -/
def parseEditDiff (md5 : String → String) (now : Nat)
    (oldContent newContent : JsVal) : EditDiff :=
  let oldSignal := parseSignal md5 now oldContent "" none
  let newSignal := parseSignal md5 now newContent "" none
  let tpHits :=
    match newSignal with
    | none => []
    | some ns =>
      (ns.tpLevels.filter (fun tp =>
        let oldTp : Option TpLevel :=
          match oldSignal with
          | some os => os.tpLevels.find? (fun t => t.level = tp.level)
          | none => none
        tp.hit &&
        (match oldTp with
         | none => true
         | some t => ¬ t.hit))).map (fun tp => tp.level)
  { tpHits := tpHits,
    isClosed :=
      (match oldSignal with
       | some os => ¬ os.isClosed
       | none => true) &&
      (match newSignal with
       | some ns => ns.isClosed
       | none => false),
    finalPnl :=
      match newSignal with
      | some ns => ns.finalPnl
      | none => none }

/-- Rejection reasons produced by `validateSignal`. -/
inductive VReason
  | nullSignal
  | unknownInstrument (instId : String)
  | priceDeviation (entryPrice currentPrice : ℚ)
deriving DecidableEq, Repr

/-- Result of `validateSignal` (`{ valid, reason? }`). -/
inductive VResult
  | valid
  | invalid (reason : VReason)
deriving DecidableEq, Repr

/-- `validateSignal(signal, knownInstruments, currentPrice)`: null check,
instrument membership, and (only when both prices are truthy) the 10%
deviation check. -/
def validateSignal (signal : Option Signal) (knownInstruments : List String)
    (currentPrice : Option ℚ) : VResult :=
  match signal with
  | none => .invalid .nullSignal
  | some s =>
    if ¬ knownInstruments.contains s.instId then .invalid (.unknownInstrument s.instId)
    else if jsTruthyQ s.entryPrice ∧ jsTruthyQ currentPrice then
      let e := s.entryPrice.getD 0
      let c := currentPrice.getD 0
      if |e - c| / c > (10 : ℚ) / 100 then .invalid (.priceDeviation e c)
      else .valid
    else .valid

/-! ## Order engine (`OrderEngine`) -/

/-- User preferences snapshot (`getPreferences()`), restricted to the
fields the engine reads. -/
structure Prefs where
  orderAmount : ℚ
  leverage : ℚ
  leverageSource : String
  marginMode : String
  orderType : String
  slippagePercent : ℚ
  trailingStopVariance : ℚ
  trailingStopType : String
  useDca : Bool
  dcaMode : String
  confirmBeforeOrder : Bool
deriving DecidableEq, Repr

/-- A Pending Fill Context (`pendingFills` map entry, keyed by exchange
order id). -/
structure FillContext where
  signal : Signal
  prefs : Prefs
  instId : String
  positionSide : String
  side : String
  size : ℚ
  entryPrice : ℚ
  leverage : ℚ
  dbOrderId : Nat
deriving DecidableEq, Repr

/-- An Active Signal Record (`activeSignals` map entry, keyed by message
id). -/
structure ActiveRecord where
  signal : Signal
  channelId : String
  version : Nat
deriving DecidableEq, Repr

/-- The engine's mutable state: known instruments (`Set`), processed
message ids (`Set`), pending fills and active signals (`Map`s, modelled
as association lists). -/
structure EngineState where
  instruments : List String
  processedMessages : List String
  pendingFills : List (String × FillContext)
  activeSignals : List (String × ActiveRecord)
deriving DecidableEq, Repr

/-- `Map.get`: first binding for the key. -/
def alookup {α : Type} (m : List (String × α)) (k : String) : Option α :=
  (m.find? (fun p => p.1 = k)).map (fun p => p.2)

/-- `Map.set`: replace the binding if present, else append. -/
def aset {α : Type} : List (String × α) → String → α → List (String × α)
  | [], k, v => [(k, v)]
  | (k2, v2) :: rest, k, v =>
    if k2 = k then (k, v) :: rest else (k2, v2) :: aset rest k v

/-- `Map.delete`. -/
def aerase {α : Type} (m : List (String × α)) (k : String) : List (String × α) :=
  m.filter (fun p => p.1 ≠ k)

/-- Structured step descriptions carried by `execution:progress` events
(the source interpolates them into strings; the payloads are modelled
structurally). -/
inductive ProgressStep
  | marginModeSet
  | leverageSet (lev : ℚ)
  | slippageFallback (pct : ℚ)
  | sizeComputed (size notional lev : ℚ)
  | orderPlaced (orderId : String)
  | dcaPlaced (level : Nat) (price : Option ℚ)
deriving DecidableEq, Repr

/-- Rejection reasons surfaced by `processMessage` via `signalRejected`. -/
inductive RejectReason
  | traderNotWhitelisted (traderName : Option String)
  | alreadyClosed
  | invalidSignal (r : VReason)
deriving DecidableEq, Repr

/-- Failure reasons surfaced via `execution:failed`. -/
inductive FailReason
  | insufficientBalance (available : ℚ)
  | noEntryPrice
  | noOrderId
deriving DecidableEq, Repr

/-- The argument record of `client.placeOrder` (sizes and prices are kept
as numbers; the source stringifies them at the call boundary). -/
structure OrderRequest where
  instId : String
  marginMode : String
  positionSide : String
  side : String
  orderType : String
  size : ℚ
  price : Option ℚ
  reduceOnly : Bool
deriving DecidableEq, Repr

/-- The record passed to `recordOrder` (restricted to scalar fields). -/
structure RecordedOrder where
  signalId : String
  instId : String
  side : String
  positionSide : String
  orderType : String
  entryPrice : ℚ
  size : ℚ
  leverage : ℚ
  orderId : String
deriving DecidableEq, Repr

/-- One externally visible action, in program order: event emissions
(`this.emit`), database writes, exchange-client calls, the pending-fill
removal, and the deferred poll scheduling (`setTimeout`). -/
inductive Step
  | signalRejected (reason : RejectReason)
  | dcaDetected
  | signalAccepted
  | confirmRequired
  | executionStart
  | executionSkipped
  | executionProgress (p : ProgressStep)
  | executionFailed (r : FailReason)
  | executionComplete (orderId : String) (stopId : Option String) (stopPrice : ℚ) (kind : String)
  | executionStopFailed (orderId : String)
  | tpHitEvent (tpHits : List Nat) (messageId : String) (version : Nat)
  | signalClosedEvent (finalPnl : Option String) (messageId : String) (version : Nat)
  | signalEditEvent (messageId : String) (version : Nat)
  | dbLogSignal (isValid : Bool) (reason : Option RejectReason)
  | dbLogSignalEdit (messageId : String)
  | dbRecordOrder (o : RecordedOrder)
  | dbUpdateOrder (dbOrderId : Nat) (stopId : Option String)
  | callSetMarginMode (mode : String)
  | callSetLeverage (instId : String) (lev : ℚ) (mode posSide : String)
  | callPlaceOrder (req : OrderRequest)
  | callPlaceTPSL (instId : String) (side : String) (size : ℚ) (slTriggerPrice : ℚ)
  | callPlaceAlgo (instId : String) (side : String) (size : ℚ) (triggerPrice : ℚ)
  | removePendingFill (orderId : String)
  | scheduleStopPoll (orderId : String)
deriving DecidableEq, Repr

/-- Responses of the external collaborators for one execution episode.
A doubled `Option` distinguishes a thrown/failed request (outer `none`,
caught by the source) from a response whose parsed value is `NaN` or
missing (inner `none`). -/
structure ExecEnv where
  /-- `parseFloat(p.positions)` for each entry of `getPositions(instId)`. -/
  positions : List ℚ
  /-- `parseFloat(balance?.details?.[0]?.available || '0')`. -/
  balanceAvailable : ℚ
  /-- `getMarkPrice` (outer `none` = request threw; inner = parsed price). -/
  markPriceResp : Option (Option ℚ)
  /-- `getTicker` fallback, same convention. -/
  tickerResp : Option (Option ℚ)
  /-- `orderId` extracted from the `placeOrder` response (`none` when the
  response carries no order id). -/
  placeOrderId : Option String
  /-- `lastInsertRowid` of the recorded order. -/
  dbRowId : Nat
  /-- `getOrderDetail(...).state` (`none` = request threw or shape
  unexpected; caught and logged by the poll path). -/
  orderDetailState : Option String
  /-- `placeTPSL` (outer `none` = threw → stop-failed path; inner =
  `tpslId` of the response). -/
  tpslResult : Option (Option String)
  /-- `placeAlgoOrder`, same convention (`algoId`). -/
  algoResult : Option (Option String)
deriving DecidableEq, Repr

/-- A state transition plus its ordered trace of externally visible
actions. -/
structure StepResult where
  state : EngineState
  trace : List Step
deriving DecidableEq, Repr

/-- The effective-leverage policy of `executeSignal` step 3: start from the
configured leverage; `'signal'` takes the signal's (truthy) leverage,
`'max'` the maximum of the two. A parsed leverage of `0` is falsy in JS
and acts as absent. -/
def effectiveLeverageOf (prefs : Prefs) (signal : Signal) : ℚ :=
  if prefs.leverageSource = "signal" ∧ signal.leverage.getD 0 ≠ 0 then
    (signal.leverage.getD 0 : ℚ)
  else if prefs.leverageSource = "max" ∧ signal.leverage.getD 0 ≠ 0 then
    max prefs.leverage (signal.leverage.getD 0 : ℚ)
  else prefs.leverage

/-- Price discovery: mark price, falling back to the last-trade ticker
price only when the mark-price request threw. -/
def jsMarketPrice (env : ExecEnv) : Option ℚ :=
  match env.markPriceResp with
  | some v => v
  | none =>
    match env.tickerResp with
    | some v => v
    | none => none

/-- `_placeDcaOrders`: one limit order per DCA level at the same order
amount; failures are isolated per leg (responses only feed logging, so
they are not modelled). A `NaN` DCA price (unrepresentable in `ℚ`) is
modelled as `0`. -/
def placeDcaOrders (signal : Signal) (prefs : Prefs) (instId positionSide : String)
    (leverage : ℚ) : List Step :=
  let side := if signal.side = "long" then "buy" else "sell"
  signal.dcaLevels.flatMap (fun dca =>
    let dcaSize := toPrecision4 ((prefs.orderAmount * leverage) / dca.price.getD 0)
    [ .callPlaceOrder {
        instId := instId, marginMode := prefs.marginMode,
        positionSide := positionSide, side := side, orderType := "limit",
        size := dcaSize, price := dca.price, reduceOnly := false },
      .executionProgress (.dcaPlaced dca.level dca.price) ])

/-- `executeSignal(signal, prefs)`: the linear orchestration — position
check, margin mode, leverage, balance check, price discovery, slippage
fallback, sizing, entry placement, recording, pending-fill creation,
deferred poll for market orders, DCA placement. -/
def executeSignal (env : ExecEnv) (st : EngineState) (signal : Signal)
    (prefs : Prefs) : StepResult :=
  let instId := signal.instId
  let isLong := signal.side = "long"
  let hasPosition := env.positions.any (fun p => p ≠ 0)
  if hasPosition then
    { state := st, trace := [.executionStart, .executionSkipped] }
  else
    let effectiveLeverage := effectiveLeverageOf prefs signal
    let positionSide := if isLong then "long" else "short"
    let t2 : List Step :=
      [.executionStart, .callSetMarginMode prefs.marginMode,
       .executionProgress .marginModeSet,
       .callSetLeverage instId effectiveLeverage prefs.marginMode positionSide,
       .executionProgress (.leverageSet effectiveLeverage)]
    if env.balanceAvailable < prefs.orderAmount then
      { state := st,
        trace := t2 ++ [.executionFailed (.insufficientBalance env.balanceAvailable)] }
    else
      let currentMarketPrice := jsMarketPrice env
      let entryPrice0 :=
        if jsTruthyQ signal.entryPrice then signal.entryPrice else currentMarketPrice
      if ¬ jsTruthyQ entryPrice0 then
        { state := st, trace := t2 ++ [.executionFailed .noEntryPrice] }
      else
        let ep := entryPrice0.getD 0
        let slippagePct := |currentMarketPrice.getD 0 - ep| / ep * 100
        let slippageHit :=
          prefs.orderType = "limit" ∧ jsTruthyQ currentMarketPrice ∧
          slippagePct > prefs.slippagePercent
        let orderType := if slippageHit then "market" else prefs.orderType
        let entryPrice := if slippageHit then currentMarketPrice.getD 0 else ep
        let t3 := t2 ++
          (if slippageHit then [.executionProgress (.slippageFallback slippagePct)] else [])
        let notional := prefs.orderAmount * effectiveLeverage
        let size := toPrecision4 (notional / entryPrice)
        let side := if isLong then "buy" else "sell"
        let req : OrderRequest := {
          instId := instId, marginMode := prefs.marginMode,
          positionSide := positionSide, side := side, orderType := orderType,
          size := size,
          price := if orderType = "limit" then some entryPrice else none,
          reduceOnly := false }
        let t5 := t3 ++ [.executionProgress (.sizeComputed size notional effectiveLeverage),
                         .callPlaceOrder req]
        match env.placeOrderId with
        | none => { state := st, trace := t5 ++ [.executionFailed .noOrderId] }
        | some orderId =>
          let t6 := t5 ++
            [.executionProgress (.orderPlaced orderId),
             .dbRecordOrder {
               signalId := signal.signalId, instId := instId, side := side,
               positionSide := positionSide, orderType := orderType,
               entryPrice := entryPrice, size := size,
               leverage := effectiveLeverage, orderId := orderId }]
          let ctx : FillContext := {
            signal := signal, prefs := prefs, instId := instId,
            positionSide := positionSide, side := side, size := size,
            entryPrice := entryPrice, leverage := effectiveLeverage,
            dbOrderId := env.dbRowId }
          let st1 := { st with pendingFills := aset st.pendingFills orderId ctx }
          let t7 := t6 ++ (if orderType = "market" then [.scheduleStopPoll orderId] else [])
          let t8 := t7 ++
            (if prefs.useDca ∧ prefs.dcaMode = "auto" ∧ signal.dcaLevels ≠ [] then
               placeDcaOrders signal prefs instId positionSide effectiveLeverage
             else [])
          { state := st1, trace := t8 }

/-- `_placeTrailingStop(orderId, fillData)`: look up the Pending Fill
Context, return silently when absent, otherwise delete the context
*first* and then compute and place the protective stop (combined TP/SL or
standalone trigger order per preferences), updating the order record on
success and reporting `execution:stopFailed` when the placement throws. -/
def placeTrailingStop (env : ExecEnv) (st : EngineState) (orderId : String) : StepResult :=
  match alookup st.pendingFills orderId with
  | none => { state := st, trace := [] }
  | some context =>
    let st1 := { st with pendingFills := aerase st.pendingFills orderId }
    let isLong := context.positionSide = "long"
    let variance := context.prefs.trailingStopVariance / 100
    let slTriggerPrice :=
      if isLong then context.entryPrice * (1 - variance)
      else context.entryPrice * (1 + variance)
    let closeSide := if isLong then "sell" else "buy"
    if context.prefs.trailingStopType = "tpsl" then
      match env.tpslResult with
      | some tpslId =>
        { state := st1,
          trace := [.removePendingFill orderId,
                    .callPlaceTPSL context.instId closeSide context.size slTriggerPrice,
                    .dbUpdateOrder context.dbOrderId tpslId,
                    .executionComplete orderId tpslId slTriggerPrice "tpsl"] }
      | none =>
        { state := st1,
          trace := [.removePendingFill orderId,
                    .callPlaceTPSL context.instId closeSide context.size slTriggerPrice,
                    .executionStopFailed orderId] }
    else
      match env.algoResult with
      | some algoId =>
        { state := st1,
          trace := [.removePendingFill orderId,
                    .callPlaceAlgo context.instId closeSide context.size slTriggerPrice,
                    .dbUpdateOrder context.dbOrderId algoId,
                    .executionComplete orderId algoId slTriggerPrice "algo"] }
      | none =>
        { state := st1,
          trace := [.removePendingFill orderId,
                    .callPlaceAlgo context.instId closeSide context.size slTriggerPrice,
                    .executionStopFailed orderId] }

/-- The streamed fill trigger (`ws.on('orderFilled')` listener): guard on
`pendingFills.has(orderId)` then delegate to `_placeTrailingStop`. -/
def onOrderFilled (env : ExecEnv) (st : EngineState) (orderId : String) : StepResult :=
  if (alookup st.pendingFills orderId).isSome then placeTrailingStop env st orderId
  else { state := st, trace := [] }

/-- The polled fill trigger (`_tryPlaceTrailingStop`): guard on the
context, query the order detail (a throw is caught and only logged), and
delegate to `_placeTrailingStop` when the order state is `filled`. -/
def tryPlaceTrailingStop (env : ExecEnv) (st : EngineState) (orderId : String) : StepResult :=
  match alookup st.pendingFills orderId with
  | none => { state := st, trace := [] }
  | some _ =>
    match env.orderDetailState with
    | none => { state := st, trace := [] }
    | some s =>
      if s = "filled" then placeTrailingStop env st orderId
      else { state := st, trace := [] }

/-- `isTraderWhitelisted(traderName)`: falsy names are rejected; otherwise
the trimmed name is compared against the whitelist with SQLite
`COLLATE NOCASE` (case-insensitive). -/
def isTraderWhitelisted (whitelist : List String) (traderName : Option String) : Bool :=
  match traderName with
  | none => false
  | some t =>
    if t = "" then false
    else whitelist.any (fun w => lowerStr (String.mk (jsTrim t.data)) = lowerStr w)

/-- Incoming message payload (`{ content, messageId, channelId, ... }`;
author and timestamp are not read by the engine). -/
structure MsgIn where
  content : JsVal
  messageId : String
  channelId : String
deriving DecidableEq, Repr

/-- Which return path `processMessage` took. -/
inductive PMOutcome
  | noSignal
  | duplicate
  | rejected (r : RejectReason)
  | confirmRequired
  | executed
deriving DecidableEq, Repr

/-- `processMessage` result: new state, trace, and the return path. -/
structure PMResult where
  state : EngineState
  trace : List Step
  outcome : PMOutcome
deriving DecidableEq, Repr

/-- `processMessage(msg)`: parse → dedup → whitelist → already-closed →
instrument validation; only then mark processed, log, track, and either
request confirmation or execute. -/
def processMessage (whitelist : List String) (prefs : Prefs) (env : ExecEnv)
    (md5 : String → String) (now : Nat) (st : EngineState) (msg : MsgIn) : PMResult :=
  match parseSignal md5 now msg.content msg.messageId (some st.processedMessages) with
  | none => { state := st, trace := [], outcome := .noSignal }
  | some signal =>
    if st.processedMessages.contains msg.messageId then
      { state := st, trace := [], outcome := .duplicate }
    else if ¬ whitelist.isEmpty ∧ ¬ isTraderWhitelisted whitelist signal.traderName then
      { state := st,
        trace := [.dbLogSignal false (some (.traderNotWhitelisted signal.traderName)),
                  .signalRejected (.traderNotWhitelisted signal.traderName)],
        outcome := .rejected (.traderNotWhitelisted signal.traderName) }
    else if signal.isClosed then
      { state := st,
        trace := [.dbLogSignal true (some .alreadyClosed),
                  .signalRejected .alreadyClosed],
        outcome := .rejected .alreadyClosed }
    else
      match validateSignal (some signal) st.instruments none with
      | .invalid r =>
        { state := st,
          trace := [.dbLogSignal false (some (.invalidSignal r)),
                    .signalRejected (.invalidSignal r)],
          outcome := .rejected (.invalidSignal r) }
      | .valid =>
        let st1 := { st with
          processedMessages := msg.messageId :: st.processedMessages,
          activeSignals := aset st.activeSignals msg.messageId
            { signal := signal, channelId := msg.channelId, version := 1 } }
        let t1 : List Step :=
          [.dbLogSignal true none] ++
          (if signal.dcaLevels ≠ [] then [.dcaDetected] else []) ++
          [.signalAccepted]
        if prefs.confirmBeforeOrder then
          { state := st1, trace := t1 ++ [.confirmRequired], outcome := .confirmRequired }
        else
          let ex := executeSignal env st1 signal prefs
          { state := ex.state, trace := t1 ++ ex.trace, outcome := .executed }

/-- Incoming edit payload (`{ content, messageId, oldContent }`). -/
structure EditMsgIn where
  content : JsVal
  messageId : String
  oldContent : Option String
deriving DecidableEq, Repr

/-- The edit diff computed by `processMessageEdit`
(`const diff = oldContent ? parseEditDiff(oldContent, content) : {...}`):
`parseEditDiff` when a truthy old content is available, otherwise the
approximation from the new parse alone (all currently-hit levels, closure
and final P&L taken at face value). -/
def editDiffOf (md5 : String → String) (now : Nat) (msg : EditMsgIn)
    (updated : Signal) : EditDiff :=
  let fallbackDiff : EditDiff :=
    { tpHits := (updated.tpLevels.filter (fun t => t.hit)).map (fun t => t.level),
      isClosed := updated.isClosed, finalPnl := updated.finalPnl }
  match msg.oldContent with
  | some old => if old = "" then fallbackDiff
                else parseEditDiff md5 now (.str old) msg.content
  | none => fallbackDiff

/-- `processMessageEdit(msg)`: reparse, diff (`editDiffOf`), log the edit
version, bump the Active Signal Record's version if present (events carry
`tracked?.version || 1`), and emit TP-hit / closed / generic-edit
events. -/
def processMessageEdit (md5 : String → String) (now : Nat) (st : EngineState)
    (msg : EditMsgIn) : StepResult :=
  match parseSignal md5 now msg.content msg.messageId (some st.processedMessages) with
  | none => { state := st, trace := [] }
  | some updated =>
    let diff : EditDiff := editDiffOf md5 now msg updated
    let tracked := alookup st.activeSignals msg.messageId
    let st1 :=
      match tracked with
      | some r =>
        let r2 := { r with version := r.version + 1 }
        { st with activeSignals := aset st.activeSignals msg.messageId r2 }
      | none => st
    let version :=
      match tracked with
      | some r => r.version + 1
      | none => 1
    let t1 : List Step :=
      if diff.tpHits ≠ [] then [.tpHitEvent diff.tpHits msg.messageId version] else []
    let st2 :=
      if diff.isClosed then
        { st1 with activeSignals := aerase st1.activeSignals msg.messageId }
      else st1
    let t2 : List Step :=
      if diff.isClosed then [.signalClosedEvent diff.finalPnl msg.messageId version]
      else []
    { state := st2,
      trace := [.dbLogSignalEdit msg.messageId] ++ t1 ++ t2 ++
               [.signalEditEvent msg.messageId version] }

/-! ## Trace projections used by the theorems -/

/-- Is a step a protective-stop placement call? -/
def isStopCall : Step → Bool
  | .callPlaceTPSL _ _ _ _ => true
  | .callPlaceAlgo _ _ _ _ => true
  | _ => false

/-- Number of protective-stop placement calls in a trace. -/
def countStopCalls (tr : List Step) : Nat := (tr.filter isStopCall).length

/-- Trigger price of the first protective-stop placement call. -/
def stopPriceOf (tr : List Step) : Option ℚ :=
  tr.findSome? (fun s =>
    match s with
    | .callPlaceTPSL _ _ _ p => some p
    | .callPlaceAlgo _ _ _ p => some p
    | _ => none)

/-- The first `placeOrder` call of a trace (the entry order; DCA orders
come later). -/
def placedEntryOrder (tr : List Step) : Option OrderRequest :=
  tr.findSome? (fun s =>
    match s with
    | .callPlaceOrder req => some req
    | _ => none)

/-- The first recorded order of a trace. -/
def recordedOrderOf (tr : List Step) : Option RecordedOrder :=
  tr.findSome? (fun s =>
    match s with
    | .dbRecordOrder o => some o
    | _ => none)

/-- Does the trace contain the slippage downgrade progress event? -/
def hasSlippageEvent (tr : List Step) : Bool :=
  tr.any (fun s =>
    match s with
    | .executionProgress (.slippageFallback _) => true
    | _ => false)

/-- Does the trace contain a TP-hit lifecycle event? -/
def hasTpHitEvent (tr : List Step) : Bool :=
  tr.any (fun s =>
    match s with
    | .tpHitEvent _ _ _ => true
    | _ => false)

/-- Does the trace contain a closure lifecycle event? -/
def hasClosedEvent (tr : List Step) : Bool :=
  tr.any (fun s =>
    match s with
    | .signalClosedEvent _ _ _ => true
    | _ => false)

/-- The direction-marker test of the parser: the loose side pattern
matches (equivalently, `LONG` or `SHORT` occurs case-insensitively). -/
def hasDirectionMarker (content : String) : Bool :=
  (findSideLoose content.data).isSome

/-- The ticker-resolution test of the parser: either ticker pattern
matches. -/
def resolvesTicker (content : String) : Bool :=
  (extractTicker content.data).isSome

/-! ## Concrete sample data for witnesses and counterexamples -/

/-- A concrete stand-in for the md5 collaborator (the engine's properties
hold for every hash function; witnesses fix one). -/
def md5Sample : String → String := fun s => String.mk ('h' :: s.data)

/-- Preferences used by witnesses: market orders, config leverage 20,
order amount 50. -/
def prefsSample : Prefs where
  orderAmount := 50
  leverage := 20
  leverageSource := "config"
  marginMode := "cross"
  orderType := "market"
  slippagePercent := 1
  trailingStopVariance := 5
  trailingStopType := "tpsl"
  useDca := false
  dcaMode := "display"
  confirmBeforeOrder := false

/-- Preferences used by the slippage witness: limit orders, 1% slippage
threshold. -/
def prefsLimitSample : Prefs :=
  { prefsSample with orderType := "limit" }

/-- Collaborator responses used by witnesses: flat position, ample
balance, mark price 0.6, order id returned, stop placement succeeding. -/
def envSample : ExecEnv where
  positions := []
  balanceAvailable := 1000
  markPriceResp := some (some (6 / 10))
  tickerResp := none
  placeOrderId := some "ord1"
  dbRowId := 7
  orderDetailState := some "filled"
  tpslResult := some (some "tp1")
  algoResult := some (some "al1")

/-- Engine state used by witnesses: one known instrument, nothing
processed or tracked. -/
def stSample : EngineState where
  instruments := ["FOGO-USDT"]
  processedMessages := []
  pendingFills := []
  activeSignals := []

/-- A concrete incoming message that parses into a long FOGO signal at
entry 0.5. -/
def msgSample : MsgIn where
  content := .str "LONG SIGNAL - FOGO/USDT Entry: 0.5"
  messageId := "m1"
  channelId := "c1"

/-- A concrete message naming trader bob (for the gate-ordering witness). -/
def msgTraderSample : MsgIn where
  content := .str "LONG SIGNAL - FOGO/USDT Trader: bob"
  messageId := "m2"
  channelId := "c1"

/-- The parse result of `msgTraderSample`'s content (checked by `rfl` in
the gate-ordering witness). -/
def sigBobSample : Signal where
  signalId := "hm2"
  ticker := "FOGO"
  instId := "FOGO-USDT"
  side := "long"
  entryPrice := none
  leverage := none
  traderName := some "bob"
  tpLevels := []
  dcaLevels := []
  finalPnl := none
  isClosed := false
  isTriggered := false
  messageType := "new_signal"
  rawContent := "LONG SIGNAL - FOGO/USDT Trader: bob"

/-- A concrete parsed signal used to populate a Pending Fill Context. -/
def sigSample : Signal where
  signalId := "sid1"
  ticker := "FOGO"
  instId := "FOGO-USDT"
  side := "long"
  entryPrice := some (1 / 2)
  leverage := none
  traderName := none
  tpLevels := []
  dcaLevels := []
  finalPnl := none
  isClosed := false
  isTriggered := false
  messageType := "new_signal"
  rawContent := ""

/-- A concrete Pending Fill Context for a long position entered at 0.5. -/
def ctxSample : FillContext where
  signal := sigSample
  prefs := prefsSample
  instId := "FOGO-USDT"
  positionSide := "long"
  side := "buy"
  size := 2000
  entryPrice := 1 / 2
  leverage := 20
  dbOrderId := 7

/-- Engine state holding the sample Pending Fill Context under order id
`ord1`. -/
def stFillSample : EngineState :=
  { stSample with pendingFills := [("ord1", ctxSample)] }

/-- Engine state in which message `m1` has already been processed. -/
def stDupSample : EngineState :=
  { stSample with processedMessages := ["m1"] }

/-- An edit to a message that was never accepted (no Active Signal
Record) whose new content reports a TP hit. -/
def editMsgSample : EditMsgIn where
  content := .str "LONG SIGNAL - FOGO/USDT TP1: 0.6 HIT"
  messageId := "m9"
  oldContent := none

/-- The parse result of `editMsgSample`'s content (extracted via `getD`
so the witness can name it without restating the record). -/
def sigEditSample : Signal :=
  (parseSignal md5Sample 0 editMsgSample.content editMsgSample.messageId
    (some stSample.processedMessages)).getD sigSample

/-- An edit to a message that was never accepted whose new content
reports closure. -/
def closedEditMsgSample : EditMsgIn where
  content := .str "LONG SIGNAL - FOGO/USDT TRADE CLOSED"
  messageId := "m10"
  oldContent := none

/-- The parse result of `closedEditMsgSample`'s content. -/
def sigClosedSample : Signal :=
  (parseSignal md5Sample 0 closedEditMsgSample.content closedEditMsgSample.messageId
    (some stSample.processedMessages)).getD sigSample

/-! ## Supporting lemmas -/

theorem length_dropWhile_le (p : Char → Bool) (l : List Char) :
    (l.dropWhile p).length ≤ l.length := by
  induction l with
  | nil => simp [List.dropWhile]
  | cons a l ih =>
    simp only [List.dropWhile]
    by_cases h : p a
    · simp only [h]
      exact le_trans ih (Nat.le_succ _)
    · simp [h]

theorem length_takeWhile_dropWhile (p : Char → Bool) (l : List Char) :
    (l.takeWhile p).length + (l.dropWhile p).length = l.length := by
  conv_rhs => rw [← List.takeWhile_append_dropWhile p l]
  rw [List.length_append]

theorem matchWordCI_length {w cs r : List Char} (h : matchWordCI w cs = some r) :
    cs.length = w.length + r.length := by
  induction w generalizing cs with
  | nil =>
    simp only [matchWordCI, Option.some.injEq] at h
    simp [← h]
  | cons a ws ih =>
    cases cs with
    | nil => simp [matchWordCI] at h
    | cons c cs' =>
      simp only [matchWordCI] at h
      by_cases hc : a.toLower = c.toLower
      · rw [if_pos hc] at h
        have := ih h
        simp [this]
        ring
      · rw [if_neg hc] at h
        exact absurd h (by simp)

theorem spacesThenWord_length {w cs r : List Char}
    (h : spacesThenWord w true cs = some r) : w.length + r.length < cs.length := by
  unfold spacesThenWord at h
  by_cases hsp : cs.takeWhile isJsSpace = []
  · rw [if_pos (by simp [hsp])] at h
    exact absurd h (by simp)
  · rw [if_neg (by simp [hsp])] at h
    have h1 := matchWordCI_length h
    have h2 := length_takeWhile_dropWhile isJsSpace cs
    have h3 : 1 ≤ (cs.takeWhile isJsSpace).length := by
      cases hc : cs.takeWhile isJsSpace with
      | nil => exact absurd hc hsp
      | cons a t => simp
    omega

theorem matchTickerPrimaryAt_length {cs t : List Char}
    (h : matchTickerPrimaryAt cs = some t) : 10 ≤ cs.length := by
  unfold matchTickerPrimaryAt at h
  cases h1 : sideWordAt cs with
  | none => simp [h1] at h
  | some r1 =>
    simp only [h1] at h
    cases h2 : spacesThenWord "SIGNAL".data true r1 with
    | none => simp [h2] at h
    | some r2 =>
      have hr1 : 4 + r1.length ≤ cs.length := by
        unfold sideWordAt at h1
        cases hL : matchWordCI "LONG".data cs with
        | some rr =>
          rw [hL] at h1
          have := matchWordCI_length hL
          simp only [Option.some.injEq] at h1
          subst h1
          simp at this
          omega
        | none =>
          rw [hL] at h1
          have := matchWordCI_length h1
          simp at this
          omega
      have h3 := spacesThenWord_length h2
      simp at h3
      omega

theorem matchTickerHeaderAt_length {cs t : List Char}
    (h : matchTickerHeaderAt cs = some t) : 10 ≤ cs.length := by
  unfold matchTickerHeaderAt at h
  cases h1 : matchWordCI "NEW".data cs with
  | none => simp [h1] at h
  | some r1 =>
    simp only [h1] at h
    cases h2 : spacesThenWord "SIGNAL".data true r1 with
    | none => simp [h2] at h
    | some r2 =>
      have ha := matchWordCI_length h1
      have h3 := spacesThenWord_length h2
      simp at ha h3
      omega

theorem findTickerPrimary_length {cs t : List Char}
    (h : findTickerPrimary cs = some t) : 10 ≤ cs.length := by
  induction cs with
  | nil => simp [findTickerPrimary] at h
  | cons c cs ih =>
    unfold findTickerPrimary at h
    cases h1 : matchTickerPrimaryAt (c :: cs) with
    | some v =>
      have := matchTickerPrimaryAt_length h1
      omega
    | none =>
      rw [h1] at h
      have := ih h
      simp
      omega

theorem findTickerHeader_length {cs t : List Char}
    (h : findTickerHeader cs = some t) : 10 ≤ cs.length := by
  induction cs with
  | nil => simp [findTickerHeader] at h
  | cons c cs ih =>
    unfold findTickerHeader at h
    cases h1 : matchTickerHeaderAt (c :: cs) with
    | some v =>
      have := matchTickerHeaderAt_length h1
      omega
    | none =>
      rw [h1] at h
      have := ih h
      simp
      omega

theorem extractTicker_length {cs t : List Char}
    (h : extractTicker cs = some t) : 10 ≤ cs.length := by
  unfold extractTicker at h
  cases h1 : findTickerPrimary cs with
  | some v => exact findTickerPrimary_length h1
  | none =>
    rw [h1] at h
    cases h2 : findTickerHeader cs with
    | some v => exact findTickerHeader_length h2
    | none => rw [h2] at h; exact absurd h (by simp)

theorem length_le_utf16Len (cs : List Char) : cs.length ≤ utf16Len cs := by
  induction cs with
  | nil => simp [utf16Len]
  | cons c cs ih =>
    have hstep : utf16Len (c :: cs) =
        (if c.toNat ≥ 0x10000 then 2 else 1) + utf16Len cs := by
      simp [utf16Len]
    rw [hstep, List.length_cons]
    by_cases h : c.toNat ≥ 0x10000
    · rw [if_pos h]; omega
    · rw [if_neg h]; omega

theorem matchSideStrictAt_word {cs : List Char} {v : String}
    (h : matchSideStrictAt cs = some v) :
    (matchWordCI "LONG".data cs).isSome = true ∨
    (matchWordCI "SHORT".data cs).isSome = true := by
  unfold matchSideStrictAt at h
  cases hL : matchWordCI "LONG".data cs with
  | some r => exact Or.inl (by simp [hL])
  | none =>
    simp only [hL] at h
    cases hS : matchWordCI "SHORT".data cs with
    | some r => exact Or.inr (by simp [hS])
    | none => simp [hS] at h

theorem findSideStrict_loose {cs : List Char} {v : String}
    (h : findSideStrict cs = some v) : (findSideLoose cs).isSome = true := by
  induction cs with
  | nil => simp [findSideStrict] at h
  | cons c cs ih =>
    unfold findSideStrict at h
    cases h1 : matchSideStrictAt (c :: cs) with
    | some w =>
      rcases matchSideStrictAt_word h1 with hL | hS
      · unfold findSideLoose
        simp [hL]
      · unfold findSideLoose
        by_cases hL : (matchWordCI "LONG".data (c :: cs)).isSome = true
        · simp [hL]
        · simp [hL, hS]
    | none =>
      simp only [h1] at h
      unfold findSideLoose
      by_cases hL : (matchWordCI "LONG".data (c :: cs)).isSome = true
      · simp [hL]
      · by_cases hS : (matchWordCI "SHORT".data (c :: cs)).isSome = true
        · simp [hL, hS]
        · simp only [hL, hS, if_neg, Bool.false_eq_true, if_false]
          exact ih h

theorem parseSignalCore_isSome (md5 : String → String) (now : Nat) (s : String)
    (mid : String) (seen : Option (List String)) :
    (parseSignalCore md5 now s mid seen).isSome
      = ((findSideLoose s.data).isSome && (extractTicker s.data).isSome) := by
  unfold parseSignalCore
  by_cases hc : findSideStrict s.data = none ∧ findSideLoose s.data = none
  · rw [if_pos hc]
    simp [hc.2]
  · rw [if_neg hc]
    cases hs : findSideStrict s.data with
    | none =>
      simp only [hs]
      cases hl : findSideLoose s.data with
      | none => exact absurd ⟨hs, hl⟩ hc
      | some side =>
        simp only [hl]
        cases ht : extractTicker s.data with
        | none => simp [ht]
        | some tk => simp [ht]
    | some v =>
      have hl := findSideStrict_loose hs
      simp only [hs]
      cases ht : extractTicker s.data with
      | none => simp [ht]
      | some tk => simp [ht, hl]

/-- C3: for every input text, `parseSignal` returns no-signal exactly when
the text lacks a direction marker (the loose `LONG`/`SHORT` pattern) or a
resolvable ticker (either ticker pattern); whenever both are present it
returns a structured `Signal`. The parser's short-input guard never
interferes: any text with a resolvable ticker is at least 10 UTF-16 code
units long. -/
theorem c3_extractor_contract (md5 : String → String) (now : Nat) (content : String)
    (messageId : String) (seen : Option (List String)) :
    (parseSignal md5 now (.str content) messageId seen).isSome
      = (hasDirectionMarker content && resolvesTicker content) := by
  simp only [parseSignal, hasDirectionMarker, resolvesTicker]
  by_cases h0 : content = ""
  · rw [if_pos h0]
    have hd : content.data = [] := by rw [h0]
    simp [hd, findSideLoose]
  · rw [if_neg h0]
    by_cases h1 : utf16Len content.data < 10
    · rw [if_pos h1]
      cases ht : extractTicker content.data with
      | none => simp [ht]
      | some t =>
        have h2 := extractTicker_length ht
        have h3 := length_le_utf16Len content.data
        omega
    · rw [if_neg h1]
      exact parseSignalCore_isSome md5 now content messageId seen

/-- C9: parsing the same content twice with the same non-empty message
identity yields the identical `signalId` both times, regardless of the
clock value and of the seen-message set — the hash input is exactly the
message identity whenever one is present. -/
theorem c9_signal_id_deterministic (md5 : String → String) (now1 now2 : Nat)
    (content : JsVal) (messageId : String) (seen1 seen2 : Option (List String))
    (h : messageId ≠ "") :
    (parseSignal md5 now1 content messageId seen1).map Signal.signalId
      = (parseSignal md5 now2 content messageId seen2).map Signal.signalId := by
  cases content with
  | nonString => rfl
  | str s =>
    simp only [parseSignal]
    by_cases h0 : s = ""
    · simp [h0]
    · rw [if_neg h0, if_neg h0]
      by_cases h1 : utf16Len s.data < 10
      · rw [if_pos h1, if_pos h1]
      · rw [if_neg h1, if_neg h1]
        unfold parseSignalCore
        by_cases hc : findSideStrict s.data = none ∧ findSideLoose s.data = none
        · rw [if_pos hc, if_pos hc]
        · rw [if_neg hc, if_neg hc]
          cases hside : (match findSideStrict s.data with
                         | some v => some v
                         | none => findSideLoose s.data) with
          | none => rfl
          | some side =>
            cases ht : extractTicker s.data with
            | none => rfl
            | some tk => simp [h]

/-- Witness for C9: identical `signalId` for the same message parsed at
two different clock values with different seen-sets. -/
theorem c9_witness :
    ("m1" : String) ≠ "" ∧
    (parseSignal md5Sample 3 (.str "LONG SIGNAL - FOGO/USDT Entry: 0.5") "m1"
        (some [])).map Signal.signalId
      = (parseSignal md5Sample 5 (.str "LONG SIGNAL - FOGO/USDT Entry: 0.5") "m1"
          (some ["m1"])).map Signal.signalId :=
  ⟨by decide,
   c9_signal_id_deterministic md5Sample 3 5 (.str "LONG SIGNAL - FOGO/USDT Entry: 0.5")
     "m1" (some []) (some ["m1"]) (by decide)⟩

/-- C10: `parseSignal` is total at its public boundary — non-string
inputs, the empty string, and strings shorter than 10 UTF-16 code units
all return no-signal, so no downstream gate or execution step is reached
for them. -/
theorem c10_parser_boundary_guards (md5 : String → String) (now : Nat)
    (messageId : String) (seen : Option (List String)) (v : JsVal)
    (h : v = JsVal.nonString ∨
         ∃ s, v = JsVal.str s ∧ (s = "" ∨ utf16Len s.data < 10)) :
    parseSignal md5 now v messageId seen = none := by
  rcases h with h | ⟨s, rfl, hs⟩
  · subst h; rfl
  · simp only [parseSignal]
    by_cases h0 : s = ""
    · simp [h0]
    · rcases hs with hs | hs
      · exact absurd hs h0
      · rw [if_neg h0, if_pos hs]

/-- Witness for C10 at the short input `"short"`. -/
theorem c10_witness :
    ((JsVal.str "short") = JsVal.nonString ∨
      ∃ s, JsVal.str "short" = JsVal.str s ∧ (s = "" ∨ utf16Len s.data < 10)) ∧
    parseSignal md5Sample 0 (.str "short") "m" none = none :=
  ⟨Or.inr ⟨"short", rfl, Or.inr (by decide)⟩,
   c10_parser_boundary_guards md5Sample 0 "m" none (.str "short")
     (Or.inr ⟨"short", rfl, Or.inr (by decide)⟩)⟩

theorem alookup_aerase_self {α : Type} (m : List (String × α)) (k : String) :
    alookup (aerase m k) k = none := by
  unfold alookup aerase
  rw [Option.map_eq_none']
  rw [List.find?_eq_none]
  intro x hx
  have hmem := List.mem_filter.mp hx
  have h2 := hmem.2
  simp only [decide_not, Bool.not_eq_true'] at h2
  simp [h2]

theorem aerase_of_lookup_none {α : Type} (m : List (String × α)) (k : String)
    (h : alookup m k = none) : aerase m k = m := by
  unfold alookup at h
  rw [Option.map_eq_none', List.find?_eq_none] at h
  unfold aerase
  rw [List.filter_eq_self]
  intro a ha
  have := h a ha
  simp only [decide_eq_true_eq] at this
  simp [this]

theorem countStopCalls_append (l1 l2 : List Step) :
    countStopCalls (l1 ++ l2) = countStopCalls l1 + countStopCalls l2 := by
  unfold countStopCalls
  rw [List.filter_append, List.length_append]

theorem placeTrailingStop_lookup_none {env : ExecEnv} {st : EngineState}
    {oid : String} (h : alookup st.pendingFills oid = none) :
    placeTrailingStop env st oid = { state := st, trace := [] } := by
  unfold placeTrailingStop
  rw [h]

/-- Everything C1 and C6 need about a resolved fill: the context is
deleted from the state, the trace begins with the removal (so the removal
precedes the placement call), exactly one stop-placement call occurs, and
its trigger price is the direction-adjusted variance offset from the
recorded entry. -/
theorem placeTrailingStop_lookup_some {env : ExecEnv} {st : EngineState}
    {oid : String} {ctx : FillContext} (h : alookup st.pendingFills oid = some ctx) :
    (placeTrailingStop env st oid).state
        = { st with pendingFills := aerase st.pendingFills oid }
    ∧ (placeTrailingStop env st oid).trace.head? = some (.removePendingFill oid)
    ∧ countStopCalls (placeTrailingStop env st oid).trace = 1
    ∧ stopPriceOf (placeTrailingStop env st oid).trace
        = some (if ctx.positionSide = "long"
                then ctx.entryPrice * (1 - ctx.prefs.trailingStopVariance / 100)
                else ctx.entryPrice * (1 + ctx.prefs.trailingStopVariance / 100)) := by
  simp only [placeTrailingStop, h]
  by_cases ht : ctx.prefs.trailingStopType = "tpsl"
  · rw [if_pos ht]
    cases henv : env.tpslResult with
    | some tpslId =>
      refine ⟨rfl, rfl, ?_, ?_⟩
      · simp [countStopCalls, isStopCall]
      · by_cases hl : ctx.positionSide = "long" <;>
          simp [stopPriceOf, List.findSome?_cons, hl]
    | none =>
      refine ⟨rfl, rfl, ?_, ?_⟩
      · simp [countStopCalls, isStopCall]
      · by_cases hl : ctx.positionSide = "long" <;>
          simp [stopPriceOf, List.findSome?_cons, hl]
  · rw [if_neg ht]
    cases henv : env.algoResult with
    | some algoId =>
      refine ⟨rfl, rfl, ?_, ?_⟩
      · simp [countStopCalls, isStopCall]
      · by_cases hl : ctx.positionSide = "long" <;>
          simp [stopPriceOf, List.findSome?_cons, hl]
    | none =>
      refine ⟨rfl, rfl, ?_, ?_⟩
      · simp [countStopCalls, isStopCall]
      · by_cases hl : ctx.positionSide = "long" <;>
          simp [stopPriceOf, List.findSome?_cons, hl]

/-- C1: a Pending Fill Context is removed before the protective-stop
placement call (the trace begins with the removal), and when the streamed
and polled fill triggers both fire for the same order id — in either
order, and whatever the poll's order-detail response — exactly one
stop-placement call occurs in total: the second trigger finds no context
and is a no-op. -/
theorem c1_at_most_once_stop (env env2 : ExecEnv) (st : EngineState) (oid : String)
    (ctx : FillContext) (h : alookup st.pendingFills oid = some ctx) :
    (placeTrailingStop env st oid).trace.head? = some (.removePendingFill oid)
    ∧ countStopCalls (placeTrailingStop env st oid).trace = 1
    ∧ alookup (placeTrailingStop env st oid).state.pendingFills oid = none
    ∧ countStopCalls ((onOrderFilled env st oid).trace ++
        (tryPlaceTrailingStop env2 (onOrderFilled env st oid).state oid).trace) = 1
    ∧ countStopCalls ((tryPlaceTrailingStop env2 st oid).trace ++
        (onOrderFilled env (tryPlaceTrailingStop env2 st oid).state oid).trace) = 1 := by
  obtain ⟨hstate, hhead, hcount, -⟩ := @placeTrailingStop_lookup_some env st oid ctx h
  have hlook : alookup (placeTrailingStop env st oid).state.pendingFills oid = none := by
    rw [hstate]
    exact alookup_aerase_self st.pendingFills oid
  have hon : onOrderFilled env st oid = placeTrailingStop env st oid := by
    simp [onOrderFilled, h]
  refine ⟨hhead, hcount, hlook, ?_, ?_⟩
  · rw [hon, countStopCalls_append]
    have h2 : (tryPlaceTrailingStop env2 (placeTrailingStop env st oid).state oid).trace
        = [] := by
      simp [tryPlaceTrailingStop, hlook]
    rw [h2, hcount]
    rfl
  · cases hd : env2.orderDetailState with
    | none =>
      have h1 : tryPlaceTrailingStop env2 st oid = { state := st, trace := [] } := by
        simp [tryPlaceTrailingStop, h, hd]
      rw [h1, countStopCalls_append, hon]
      rw [hcount]
      rfl
    | some s =>
      by_cases hf : s = "filled"
      · subst hf
        have h1 : tryPlaceTrailingStop env2 st oid = placeTrailingStop env2 st oid := by
          simp [tryPlaceTrailingStop, h, hd]
        obtain ⟨hstate2, -, hcount2, -⟩ := @placeTrailingStop_lookup_some env2 st oid ctx h
        have hlook2 : alookup (placeTrailingStop env2 st oid).state.pendingFills oid
            = none := by
          rw [hstate2]
          exact alookup_aerase_self st.pendingFills oid
        have h2 : (onOrderFilled env (placeTrailingStop env2 st oid).state oid).trace
            = [] := by
          simp [onOrderFilled, hlook2]
        rw [h1, countStopCalls_append, h2, hcount2]
        rfl
      · have h1 : tryPlaceTrailingStop env2 st oid = { state := st, trace := [] } := by
          simp [tryPlaceTrailingStop, h, hd, hf]
        rw [h1, countStopCalls_append, hon]
        rw [hcount]
        rfl

/-- Witness for C1 at a concrete state holding one Pending Fill Context. -/
theorem c1_witness :
    alookup stFillSample.pendingFills "ord1" = some ctxSample ∧
    countStopCalls ((onOrderFilled envSample stFillSample "ord1").trace ++
      (tryPlaceTrailingStop envSample
        (onOrderFilled envSample stFillSample "ord1").state "ord1").trace) = 1 :=
  ⟨rfl, (c1_at_most_once_stop envSample envSample stFillSample "ord1" ctxSample rfl).2.2.2.1⟩

/-- C6: the stop-trigger price computed on fill resolution is the entry
price offset by the configured variance percentage, inverted by
direction: long positions get `entry × (1 − variance/100)`, strictly
below entry, and short positions get `entry × (1 + variance/100)`,
strictly above entry, for positive entry and variance in (0, 100). -/
theorem c6_stop_trigger_price (env : ExecEnv) (st : EngineState) (oid : String)
    (ctx : FillContext) (h : alookup st.pendingFills oid = some ctx)
    (he : 0 < ctx.entryPrice) (hv0 : 0 < ctx.prefs.trailingStopVariance)
    (_hv1 : ctx.prefs.trailingStopVariance < 100) :
    (ctx.positionSide = "long" →
       stopPriceOf (placeTrailingStop env st oid).trace
         = some (ctx.entryPrice * (1 - ctx.prefs.trailingStopVariance / 100))
       ∧ ctx.entryPrice * (1 - ctx.prefs.trailingStopVariance / 100) < ctx.entryPrice)
    ∧ (ctx.positionSide = "short" →
       stopPriceOf (placeTrailingStop env st oid).trace
         = some (ctx.entryPrice * (1 + ctx.prefs.trailingStopVariance / 100))
       ∧ ctx.entryPrice < ctx.entryPrice * (1 + ctx.prefs.trailingStopVariance / 100)) := by
  obtain ⟨-, -, -, hprice⟩ := @placeTrailingStop_lookup_some env st oid ctx h
  have hpos : 0 < ctx.entryPrice * ctx.prefs.trailingStopVariance / 100 := by positivity
  constructor
  · intro hl
    rw [hprice, if_pos hl]
    exact ⟨rfl, by nlinarith [hpos]⟩
  · intro hs
    have hl : ¬ ctx.positionSide = "long" := by
      rw [hs]
      decide
    rw [hprice, if_neg hl]
    exact ⟨rfl, by nlinarith [hpos]⟩

/-- Witness for C6 at the concrete long-position context. -/
theorem c6_witness :
    (alookup stFillSample.pendingFills "ord1" = some ctxSample
     ∧ (0 : ℚ) < ctxSample.entryPrice
     ∧ (0 : ℚ) < ctxSample.prefs.trailingStopVariance
     ∧ ctxSample.prefs.trailingStopVariance < 100
     ∧ ctxSample.positionSide = "long") ∧
    (stopPriceOf (placeTrailingStop envSample stFillSample "ord1").trace
       = some (ctxSample.entryPrice * (1 - ctxSample.prefs.trailingStopVariance / 100))
     ∧ ctxSample.entryPrice * (1 - ctxSample.prefs.trailingStopVariance / 100)
         < ctxSample.entryPrice) :=
  ⟨⟨rfl, by norm_num [ctxSample], by norm_num [ctxSample, prefsSample],
     by norm_num [ctxSample, prefsSample], rfl⟩,
   (c6_stop_trigger_price envSample stFillSample "ord1" ctxSample rfl
     (by norm_num [ctxSample]) (by norm_num [ctxSample, prefsSample])
     (by norm_num [ctxSample, prefsSample])).1 rfl⟩

/-- C4: for every execution that reaches order placement with a positive
entry price (and no slippage downgrade rewriting the price), the placed
order's size is `(orderAmount × effectiveLeverage) / entryPrice` rounded
to 4 significant digits, where the effective leverage follows the
configured policy: the configured leverage under policy `'config'` (or
any policy when the signal carries no truthy leverage), the signal's
leverage under `'signal'`, and the maximum of the two under `'max'`; in
particular `orderAmount = 50`, leverage `20`, entry `0.5` yields size
`2000`. -/
theorem c4_size_computation (env : ExecEnv) (st : EngineState) (signal : Signal)
    (prefs : Prefs) (e : ℚ)
    (hpos : env.positions.any (fun p => p ≠ 0) = false)
    (hbal : ¬ env.balanceAvailable < prefs.orderAmount)
    (hentry : signal.entryPrice = some e) (he : 0 < e)
    (hslip : ¬ (prefs.orderType = "limit" ∧ jsTruthyQ (jsMarketPrice env) = true ∧
        |(jsMarketPrice env).getD 0 - e| / e * 100 > prefs.slippagePercent)) :
    ((placedEntryOrder (executeSignal env st signal prefs).trace).map OrderRequest.size
       = some (toPrecision4 ((prefs.orderAmount * effectiveLeverageOf prefs signal) / e))
     ∧ (placedEntryOrder (executeSignal env st signal prefs).trace).map
         OrderRequest.orderType = some prefs.orderType)
    ∧ (signal.leverage = none → effectiveLeverageOf prefs signal = prefs.leverage)
    ∧ (prefs.leverageSource ≠ "signal" → prefs.leverageSource ≠ "max" →
        effectiveLeverageOf prefs signal = prefs.leverage)
    ∧ (∀ l : Nat, signal.leverage = some l → l ≠ 0 →
        prefs.leverageSource = "signal" → effectiveLeverageOf prefs signal = (l : ℚ))
    ∧ (∀ l : Nat, signal.leverage = some l → l ≠ 0 →
        prefs.leverageSource = "max" →
        effectiveLeverageOf prefs signal = max prefs.leverage (l : ℚ))
    ∧ toPrecision4 ((50 * 20 : ℚ) / (1 / 2)) = 2000 := by
  have he0 : e ≠ 0 := ne_of_gt he
  refine ⟨?_, ?_, ?_, ?_, ?_, ?_⟩
  · have htruthy : jsTruthyQ (some e) = true := by
      simp [jsTruthyQ, he0]
    cases hoid : env.placeOrderId with
    | none =>
      simp only [executeSignal, hpos, hentry, htruthy, hbal, hslip, hoid,
        Bool.false_eq_true, if_false, if_true, Option.getD_some, not_true,
        not_false_iff, ite_true, ite_false]
      simp [placedEntryOrder, List.findSome?_cons]
    | some oid =>
      simp only [executeSignal, hpos, hentry, htruthy, hbal, hslip, hoid,
        Bool.false_eq_true, if_false, if_true, Option.getD_some, not_true,
        not_false_iff, ite_true, ite_false]
      simp [placedEntryOrder, List.findSome?_cons]
  · intro hnone
    simp [effectiveLeverageOf, hnone]
  · intro h1 h2
    simp [effectiveLeverageOf, h1, h2]
  · intro l hl hl0 hsrc
    simp [effectiveLeverageOf, hl, hsrc, hl0]
  · intro l hl hl0 hsrc
    have : ¬ (prefs.leverageSource = "signal" ∧ (l : ℚ) ≠ 0) := by
      rw [hsrc]
      simp
    simp [effectiveLeverageOf, hl, hsrc, hl0, this]
  · have h1 : (50 * 20 : ℚ) / (1 / 2) = 2000 := by norm_num
    rw [h1]
    have h3 : (⌊(2000 : ℚ)⌋₊ : ℕ) = 2000 := by norm_num
    have h4 : digitsLen 2000 2000 = 4 := by decide
    have h5 : decExp 2000 = 3 := by
      rw [decExp, if_pos (by norm_num : (1 : ℚ) ≤ 2000), h3, h4]
      norm_num
    have h2 : |(2000 : ℚ)| = 2000 := by norm_num
    rw [toPrecision4, if_neg (by norm_num : (2000 : ℚ) ≠ 0)]
    simp only [h2, h5, if_pos (show (0 : ℚ) < 2000 by norm_num)]
    have hp : pow10 (3 - 3) = 1 := by norm_num [pow10]
    have hr : roundHalfUp (2000 * 1) = 2000 := by
      rw [roundHalfUp, Int.floor_eq_iff]
      constructor <;> norm_num
    rw [hp, hr]
    norm_num

/-- Witness for C4: the concrete execution with order amount 50, config
leverage 20 and entry 0.5. -/
theorem c4_witness :
    (envSample.positions.any (fun p => p ≠ 0) = false
     ∧ ¬ envSample.balanceAvailable < prefsSample.orderAmount
     ∧ sigSample.entryPrice = some (1 / 2)
     ∧ (0 : ℚ) < 1 / 2) ∧
    (placedEntryOrder (executeSignal envSample stSample sigSample prefsSample).trace).map
        OrderRequest.size
      = some (toPrecision4
          ((prefsSample.orderAmount * effectiveLeverageOf prefsSample sigSample) / (1 / 2))) :=
  ⟨⟨rfl, by norm_num [envSample, prefsSample], rfl, by norm_num⟩,
   ((c4_size_computation envSample stSample sigSample prefsSample (1 / 2)
      rfl (by norm_num [envSample, prefsSample]) rfl (by norm_num)
      (by simp [prefsSample])).1).1⟩

/-- C5: for a limit-order execution that obtained a current market price,
a deviation `|market − entry| / entry` above the configured threshold
downgrades the order to market (no limit price on the placed order),
records the market price as the order's entry price, and emits the
distinct slippage progress event; at or below the threshold the order
stays a limit order at the signal's entry price and no slippage event is
emitted. -/
theorem c5_slippage_downgrade (env : ExecEnv) (st : EngineState) (signal : Signal)
    (prefs : Prefs) (e m : ℚ) (oid : String)
    (hpos : env.positions.any (fun p => p ≠ 0) = false)
    (hbal : ¬ env.balanceAvailable < prefs.orderAmount)
    (hentry : signal.entryPrice = some e) (he : e ≠ 0)
    (hlimit : prefs.orderType = "limit")
    (hm : jsMarketPrice env = some m) (hm0 : m ≠ 0)
    (hoid : env.placeOrderId = some oid) :
    (|m - e| / e * 100 > prefs.slippagePercent →
       (placedEntryOrder (executeSignal env st signal prefs).trace).map
           OrderRequest.orderType = some "market"
       ∧ (placedEntryOrder (executeSignal env st signal prefs).trace).map
           OrderRequest.price = some none
       ∧ hasSlippageEvent (executeSignal env st signal prefs).trace = true
       ∧ (recordedOrderOf (executeSignal env st signal prefs).trace).map
           RecordedOrder.entryPrice = some m
       ∧ (recordedOrderOf (executeSignal env st signal prefs).trace).map
           RecordedOrder.orderType = some "market")
    ∧ (¬ |m - e| / e * 100 > prefs.slippagePercent →
       (placedEntryOrder (executeSignal env st signal prefs).trace).map
           OrderRequest.orderType = some "limit"
       ∧ (placedEntryOrder (executeSignal env st signal prefs).trace).map
           OrderRequest.price = some (some e)
       ∧ hasSlippageEvent (executeSignal env st signal prefs).trace = false
       ∧ (recordedOrderOf (executeSignal env st signal prefs).trace).map
           RecordedOrder.entryPrice = some e
       ∧ (recordedOrderOf (executeSignal env st signal prefs).trace).map
           RecordedOrder.orderType = some "limit") := by
  have htruthy : jsTruthyQ (some e) = true := by simp [jsTruthyQ, he]
  constructor
  · intro hgt
    have hC : prefs.orderType = "limit" ∧ jsTruthyQ (some m) = true ∧
        |m - e| / e * 100 > prefs.slippagePercent :=
      ⟨hlimit, by simp [jsTruthyQ, hm0], hgt⟩
    simp only [executeSignal, hpos, hentry, htruthy, hbal, hm, hC, hoid,
      Bool.false_eq_true, if_false, if_true, Option.getD_some, not_true,
      not_false_iff, ite_true, ite_false]
    simp [placedEntryOrder, recordedOrderOf, hasSlippageEvent,
      List.findSome?_cons]
  · intro hle
    have hnC : ¬ (prefs.orderType = "limit" ∧ jsTruthyQ (some m) = true ∧
        |m - e| / e * 100 > prefs.slippagePercent) := by
      rintro ⟨-, -, hx⟩
      exact hle hx
    simp only [executeSignal, hpos, hentry, htruthy, hbal, hm, hnC, hoid,
      Bool.false_eq_true, if_false, if_true, Option.getD_some, not_true,
      not_false_iff, ite_true, ite_false]
    refine ⟨?_, ?_, ?_, ?_, ?_⟩ <;>
      simp [placedEntryOrder, recordedOrderOf, hasSlippageEvent,
        List.findSome?_cons, hlimit]
    intro x _ _ _ hx
    simp only [placeDcaOrders] at hx
    rcases List.mem_flatMap.mp hx with ⟨dca, -, hmem⟩
    simp only [List.mem_cons, List.not_mem_nil, or_false] at hmem
    rcases hmem with rfl | rfl <;> rfl

/-- Witness for C5: market price 0.6 against limit entry 0.5 (20%
deviation, threshold 1%) downgrades the placed order to market. -/
theorem c5_witness :
    (prefsLimitSample.orderType = "limit"
     ∧ jsMarketPrice envSample = some (6 / 10)
     ∧ |(6 / 10 : ℚ) - 1 / 2| / (1 / 2) * 100 > prefsLimitSample.slippagePercent) ∧
    (placedEntryOrder
        (executeSignal envSample stSample sigSample prefsLimitSample).trace).map
      OrderRequest.orderType = some "market" :=
  ⟨⟨rfl, rfl, by
      rw [abs_of_pos (by norm_num : (0 : ℚ) < 6 / 10 - 1 / 2)]
      norm_num [prefsLimitSample, prefsSample]⟩,
   ((c5_slippage_downgrade envSample stSample sigSample prefsLimitSample (1 / 2) (6 / 10)
       "ord1" rfl (by norm_num [envSample, prefsLimitSample, prefsSample]) rfl
       (by norm_num) rfl rfl (by norm_num) rfl).1
     (by
       rw [abs_of_pos (by norm_num : (0 : ℚ) < 6 / 10 - 1 / 2)]
       norm_num [prefsLimitSample, prefsSample])).1⟩

theorem executeSignal_processedMessages (env : ExecEnv) (st : EngineState)
    (signal : Signal) (prefs : Prefs) :
    (executeSignal env st signal prefs).state.processedMessages
      = st.processedMessages := by
  simp only [executeSignal]
  split_ifs <;> (try rfl) <;> (cases env.placeOrderId <;> rfl)

/-- C2: a message identity is marked processed only after every gate
check has passed (the processed set grows exactly on the
confirm-required and executed outcomes), and a `processMessage` call
whose identity is already processed returns at the dedup check — state
unchanged, no trace (hence no execution), outcome at most the parse or
dedup early return. -/
theorem c2_dedup_gate (whitelist : List String) (prefs : Prefs) (env : ExecEnv)
    (md5 : String → String) (now : Nat) (st : EngineState) (msg : MsgIn) :
    (st.processedMessages.contains msg.messageId = true →
       (processMessage whitelist prefs env md5 now st msg).state = st
       ∧ (processMessage whitelist prefs env md5 now st msg).trace = []
       ∧ ((processMessage whitelist prefs env md5 now st msg).outcome = .noSignal
          ∨ (processMessage whitelist prefs env md5 now st msg).outcome = .duplicate))
    ∧ ((processMessage whitelist prefs env md5 now st msg).state.processedMessages.contains
          msg.messageId = true
       ↔ (st.processedMessages.contains msg.messageId = true
          ∨ (processMessage whitelist prefs env md5 now st msg).outcome = .confirmRequired
          ∨ (processMessage whitelist prefs env md5 now st msg).outcome = .executed)) := by
  cases hp : parseSignal md5 now msg.content msg.messageId (some st.processedMessages) with
  | none =>
    simp only [processMessage, hp]
    exact ⟨fun _ => by simp, by simp⟩
  | some signal =>
    simp only [processMessage, hp]
    by_cases hdup : st.processedMessages.contains msg.messageId = true
    · simp only [hdup, if_true]
      exact ⟨fun _ => by simp, by simp [hdup]⟩
    · have hdup0 : st.processedMessages.contains msg.messageId = false :=
        Bool.eq_false_iff.mpr (fun h => hdup h)
      simp only [hdup0, Bool.false_eq_true, if_false]
      by_cases hwl : ¬ whitelist.isEmpty = true
          ∧ ¬ isTraderWhitelisted whitelist signal.traderName = true
      · rw [if_pos hwl]
        exact ⟨fun h => h.elim, by simp; simpa using hdup0⟩
      · rw [if_neg hwl]
        by_cases hcl : signal.isClosed = true
        · simp only [hcl, if_true]
          exact ⟨fun h => h.elim, by simp; simpa using hdup0⟩
        · have hcl0 : signal.isClosed = false := Bool.eq_false_iff.mpr (fun h => hcl h)
          simp only [hcl0, Bool.false_eq_true, if_false]
          cases hv : validateSignal (some signal) st.instruments none with
          | invalid r =>
            exact ⟨fun h => h.elim, by simp; simpa using hdup0⟩
          | valid =>
            by_cases hconf : prefs.confirmBeforeOrder = true
            · simp only [hconf, if_true]
              refine ⟨fun h => h.elim, ?_⟩
              simp [List.contains_cons]
            · have hc0 : prefs.confirmBeforeOrder = false :=
                Bool.eq_false_iff.mpr (fun h => hconf h)
              simp only [hc0, Bool.false_eq_true, if_false]
              refine ⟨fun h => h.elim, ?_⟩
              rw [executeSignal_processedMessages]
              simp [List.contains_cons]

/-- Witness for C2: reprocessing an already-processed message id is a
silent no-op. -/
theorem c2_witness :
    stDupSample.processedMessages.contains msgSample.messageId = true ∧
    (processMessage [] prefsSample envSample md5Sample 0 stDupSample msgSample).trace
      = [] :=
  ⟨rfl,
   ((c2_dedup_gate [] prefsSample envSample md5Sample 0 stDupSample msgSample).1
     rfl).2.1⟩

/-- C7: the gate's checks run in sequence and short-circuit with distinct
reasons; the whitelist check and the already-closed check are evaluated
before instrument validation (the first two conclusions hold for every
instrument set, in particular when the signal's instrument is unknown),
and an unknown instrument is reported only when both earlier checks
pass. -/
theorem c7_gate_ordering (whitelist : List String) (prefs : Prefs) (env : ExecEnv)
    (md5 : String → String) (now : Nat) (st : EngineState) (msg : MsgIn)
    (signal : Signal)
    (hparse : parseSignal md5 now msg.content msg.messageId
        (some st.processedMessages) = some signal)
    (hnew : st.processedMessages.contains msg.messageId = false) :
    (whitelist ≠ [] → isTraderWhitelisted whitelist signal.traderName = false →
       (processMessage whitelist prefs env md5 now st msg).outcome
           = .rejected (.traderNotWhitelisted signal.traderName)
       ∧ (processMessage whitelist prefs env md5 now st msg).state = st)
    ∧ ((whitelist = [] ∨ isTraderWhitelisted whitelist signal.traderName = true) →
       signal.isClosed = true →
       (processMessage whitelist prefs env md5 now st msg).outcome
           = .rejected .alreadyClosed
       ∧ (processMessage whitelist prefs env md5 now st msg).state = st)
    ∧ ((whitelist = [] ∨ isTraderWhitelisted whitelist signal.traderName = true) →
       signal.isClosed = false →
       st.instruments.contains signal.instId = false →
       (processMessage whitelist prefs env md5 now st msg).outcome
           = .rejected (.invalidSignal (.unknownInstrument signal.instId))) := by
  refine ⟨?_, ?_, ?_⟩
  · intro hw hblk
    have hne : whitelist.isEmpty = false := by
      cases whitelist with
      | nil => exact absurd rfl hw
      | cons a l => rfl
    have hcond : ¬ whitelist.isEmpty = true
        ∧ ¬ isTraderWhitelisted whitelist signal.traderName = true := by
      constructor
      · simp [hne]
      · simp [hblk]
    simp only [processMessage, hparse, hnew, Bool.false_eq_true, if_false]
    rw [if_pos hcond]
    exact ⟨rfl, rfl⟩
  · intro hwl hcl
    have hcond : ¬ (¬ whitelist.isEmpty = true
        ∧ ¬ isTraderWhitelisted whitelist signal.traderName = true) := by
      rcases hwl with hwl | hwl
      · intro hx
        exact hx.1 (by simp [hwl])
      · intro hx
        exact hx.2 hwl
    simp only [processMessage, hparse, hnew, Bool.false_eq_true, if_false]
    rw [if_neg hcond, if_pos hcl]
    exact ⟨rfl, rfl⟩
  · intro hwl hcl hinst
    have hcond : ¬ (¬ whitelist.isEmpty = true
        ∧ ¬ isTraderWhitelisted whitelist signal.traderName = true) := by
      rcases hwl with hwl | hwl
      · intro hx
        exact hx.1 (by simp [hwl])
      · intro hx
        exact hx.2 hwl
    have hmem : signal.instId ∉ st.instruments := by simpa using hinst
    have hv : validateSignal (some signal) st.instruments none
        = .invalid (.unknownInstrument signal.instId) := by
      simp [validateSignal, hmem]
    simp only [processMessage, hparse, hnew, Bool.false_eq_true, if_false]
    rw [if_neg hcond]
    simp only [hcl, Bool.false_eq_true, if_false, hv]

/-- Witness for C7: trader bob against whitelist `["alice"]` is rejected
with the whitelist reason even though the instrument set is empty. -/
theorem c7_witness :
    (parseSignal md5Sample 0 msgTraderSample.content msgTraderSample.messageId
        (some ({ stSample with instruments := ([] : List String) }).processedMessages)
        = some sigBobSample
     ∧ (["alice"] : List String) ≠ []
     ∧ isTraderWhitelisted ["alice"] sigBobSample.traderName = false) ∧
    (processMessage ["alice"] prefsSample envSample md5Sample 0
        { stSample with instruments := [] } msgTraderSample).outcome
      = .rejected (.traderNotWhitelisted sigBobSample.traderName) :=
  ⟨⟨rfl, by decide, rfl⟩,
   ((c7_gate_ordering ["alice"] prefsSample envSample md5Sample 0
       { stSample with instruments := [] } msgTraderSample sigBobSample rfl rfl).1
     (by decide) rfl).1⟩


theorem mem_ite_singleton {α : Type} (c : Prop) [Decidable c] (a x : α)
    (h : x ∈ (if c then [a] else ([] : List α))) : x = a := by
  split at h
  · simpa using h
  · simp at h

/-- Counterexample for C8 as stated: an edit whose message identity has no
Active Signal Record (the record map is empty) still emits a TP-hit
lifecycle event, because `processMessageEdit` emits TP-hit and closure
events from the parsed diff without consulting the record map. -/
theorem c8_counterexample :
    alookup stSample.activeSignals editMsgSample.messageId = none
    ∧ hasTpHitEvent (processMessageEdit md5Sample 0 stSample editMsgSample).trace
        = true :=
  ⟨rfl, rfl⟩

/-- C8 (amended): an edit to a message that was never accepted is not an
error — the record map is left unchanged and the generic edit
notification is emitted with version 1 — but TP-hit and closure
lifecycle events are emitted exactly when the parsed edit diff reports
them (a TP-hit event iff the diff's newly-hit list is nonempty, a
closure event iff the diff reports closure), each carrying the diff's
payload, the edit's message identity and version 1. -/
theorem c8_edit_without_record (md5 : String → String) (now : Nat)
    (st : EngineState) (msg : EditMsgIn) (updated : Signal)
    (hparse : parseSignal md5 now msg.content msg.messageId
        (some st.processedMessages) = some updated)
    (hnorec : alookup st.activeSignals msg.messageId = none) :
    (processMessageEdit md5 now st msg).state = st
    ∧ Step.signalEditEvent msg.messageId 1 ∈ (processMessageEdit md5 now st msg).trace
    ∧ (Step.tpHitEvent (editDiffOf md5 now msg updated).tpHits msg.messageId 1
          ∈ (processMessageEdit md5 now st msg).trace
       ↔ (editDiffOf md5 now msg updated).tpHits ≠ [])
    ∧ (Step.signalClosedEvent (editDiffOf md5 now msg updated).finalPnl msg.messageId 1
          ∈ (processMessageEdit md5 now st msg).trace
       ↔ (editDiffOf md5 now msg updated).isClosed = true)
    ∧ (∀ hits mid v, Step.tpHitEvent hits mid v
          ∈ (processMessageEdit md5 now st msg).trace →
        hits = (editDiffOf md5 now msg updated).tpHits ∧ mid = msg.messageId ∧ v = 1)
    ∧ (∀ pnl mid v, Step.signalClosedEvent pnl mid v
          ∈ (processMessageEdit md5 now st msg).trace →
        pnl = (editDiffOf md5 now msg updated).finalPnl ∧ mid = msg.messageId ∧ v = 1) := by
  have he : aerase st.activeSignals msg.messageId = st.activeSignals :=
    aerase_of_lookup_none _ _ hnorec
  simp only [processMessageEdit, hparse, hnorec, he]
  refine ⟨?_, ?_, ?_, ?_, ?_, ?_⟩
  · split <;> rfl
  · split <;> split <;> simp
  · constructor
    · intro hmem
      by_cases hne : (editDiffOf md5 now msg updated).tpHits ≠ []
      · exact hne
      · exfalso
        simp only [List.append_assoc, List.mem_append, List.mem_cons,
          List.not_mem_nil, or_false, false_or] at hmem
        rcases hmem with h | h | h | h
        · exact absurd h (by simp)
        · rw [if_neg hne] at h
          simp at h
        · have h2 := mem_ite_singleton _ _ _ h
          exact absurd h2 (by simp)
        · exact absurd h (by simp)
    · intro hne
      simp only [List.append_assoc, List.mem_append, List.mem_cons,
        List.not_mem_nil, or_false, false_or]
      refine Or.inr (Or.inl ?_)
      rw [if_pos hne]
      simp
  · constructor
    · intro hmem
      by_cases hcl : (editDiffOf md5 now msg updated).isClosed = true
      · exact hcl
      · exfalso
        simp only [List.append_assoc, List.mem_append, List.mem_cons,
          List.not_mem_nil, or_false, false_or] at hmem
        rcases hmem with h | h | h | h
        · exact absurd h (by simp)
        · have h2 := mem_ite_singleton _ _ _ h
          exact absurd h2 (by simp)
        · rw [if_neg hcl] at h
          simp at h
        · exact absurd h (by simp)
    · intro hcl
      simp only [List.append_assoc, List.mem_append, List.mem_cons,
        List.not_mem_nil, or_false, false_or]
      refine Or.inr (Or.inr (Or.inl ?_))
      rw [if_pos hcl]
      simp
  · intro hits mid v hmem
    simp only [List.append_assoc, List.mem_append, List.mem_cons,
      List.not_mem_nil, or_false, false_or] at hmem
    rcases hmem with h | h | h | h
    · exact absurd h (by simp)
    · have h2 := mem_ite_singleton _ _ _ h
      injection h2 with e1 e2 e3
      exact ⟨e1, e2, e3⟩
    · have h2 := mem_ite_singleton _ _ _ h
      exact absurd h2 (by simp)
    · exact absurd h (by simp)
  · intro pnl mid v hmem
    simp only [List.append_assoc, List.mem_append, List.mem_cons,
      List.not_mem_nil, or_false, false_or] at hmem
    rcases hmem with h | h | h | h
    · exact absurd h (by simp)
    · have h2 := mem_ite_singleton _ _ _ h
      exact absurd h2 (by simp)
    · have h2 := mem_ite_singleton _ _ _ h
      injection h2 with e1 e2 e3
      exact ⟨e1, e2, e3⟩
    · exact absurd h (by simp)

/-- Witness for the amended C8: a recordless TP-hit edit has its TP-hit
event emitted, and a recordless closure edit has its closure event
emitted, both with version 1 and an unchanged record map. -/
theorem c8_witness :
    (parseSignal md5Sample 0 editMsgSample.content editMsgSample.messageId
        (some stSample.processedMessages) = some sigEditSample
     ∧ alookup stSample.activeSignals editMsgSample.messageId = none
     ∧ (editDiffOf md5Sample 0 editMsgSample sigEditSample).tpHits ≠ []
     ∧ parseSignal md5Sample 0 closedEditMsgSample.content closedEditMsgSample.messageId
         (some stSample.processedMessages) = some sigClosedSample
     ∧ alookup stSample.activeSignals closedEditMsgSample.messageId = none
     ∧ (editDiffOf md5Sample 0 closedEditMsgSample sigClosedSample).isClosed = true) ∧
    ((processMessageEdit md5Sample 0 stSample editMsgSample).state = stSample
     ∧ Step.tpHitEvent (editDiffOf md5Sample 0 editMsgSample sigEditSample).tpHits
         editMsgSample.messageId 1
         ∈ (processMessageEdit md5Sample 0 stSample editMsgSample).trace
     ∧ Step.signalClosedEvent
         (editDiffOf md5Sample 0 closedEditMsgSample sigClosedSample).finalPnl
         closedEditMsgSample.messageId 1
         ∈ (processMessageEdit md5Sample 0 stSample closedEditMsgSample).trace) :=
  ⟨⟨rfl, rfl, by decide, rfl, rfl, rfl⟩,
   ⟨(c8_edit_without_record md5Sample 0 stSample editMsgSample sigEditSample
       rfl rfl).1,
    (c8_edit_without_record md5Sample 0 stSample editMsgSample sigEditSample
       rfl rfl).2.2.1.mpr (by decide),
    (c8_edit_without_record md5Sample 0 stSample closedEditMsgSample sigClosedSample
       rfl rfl).2.2.2.1.mpr rfl⟩⟩
